import Mathlib

/-! # authN: access tokens, rotating refresh tokens and their store

A shallow embedding of the Go packages `internal/model`, `internal/store/sqlite`,
`internal/token` and `internal/handlers`, followed by theorems about the
refresh-token lifecycle.

Conventions of the embedding.

* The SQLite database is an explicit value `DB` threaded through every operation.
  A table is the list of its rows in insertion order; `AUTOINCREMENT` is the
  counter `tokenSeq` / `userSeq` (the largest id handed out so far).
* `int64` values are `Int`; the one place where the source multiplies two `int64`
  values (`time.Duration(ttlSeconds) * time.Second`) wraps explicitly (`wrap64`).
* `time.Time` is an `Int`, nanoseconds since the Unix epoch.  Timestamps are written
  to the database with `Format(time.RFC3339Nano)` and read back with `time.Parse`;
  that pair is taken to return the instant that was written.
* Every `time.Now()` and every `rand.Read` of a handler run is a field of the
  environment of that run, one field per call site.
* A store call goes through `database/sql`; the driver may report a failure that is
  not a property of the data (closed connection, expired context, I/O error).  Each
  environment says, per call site, whether that happens; the statement then has no
  effect and the call returns an error.
* Library code (SHA-256, HMAC signing, bcrypt, the JWT codec) is the parameter `Lib`.
-/

namespace AuthN

/-! ## Basic types -/

/-- Go `time.Time`, as nanoseconds since the Unix epoch. -/
abbrev Time := Int

/-- Go `time.Second`, a `time.Duration` in nanoseconds. -/
def Second : Int := 1000000000

/-- Go `time.Hour`. -/
def Hour : Int := 3600 * Second

/-- Two's-complement wrap of an integer into the `int64` range. -/
def wrap64 (x : Int) : Int := (x + 2 ^ 63) % 2 ^ 64 - 2 ^ 63

/-- The integer is in the `int64` range, so `int64` arithmetic producing it does not wrap. -/
def fitsInt64 (x : Int) : Prop := -2 ^ 63 ≤ x ∧ x < 2 ^ 63

/-- Go `Time.Unix()`: whole seconds since the epoch. -/
def Unix (t : Time) : Int := t / Second

/-- A byte. -/
abbrev Byte := Fin 256

/-- Row of the table `users` (`model.User`). -/
structure User where
  ID : Int
  Username : String
  Password : String
  CreatedAt : Time
deriving DecidableEq, Repr

/-- Row of the table `refresh_tokens` (`model.RefreshToken`); a `NULL` column is `none`. -/
structure RefreshToken where
  ID : Int
  UserID : Int
  TokenHash : String
  CreatedAt : Time
  ExpiresAt : Time
  Revoked : Bool
  ReplacedBy : Option Int
  DeviceInfo : Option String
deriving DecidableEq, Repr

/-- The database behind `SQLiteUserStore`: both tables and their `AUTOINCREMENT` counters. -/
structure DB where
  users : List User
  userSeq : Int
  refresh_tokens : List RefreshToken
  tokenSeq : Int
deriving DecidableEq, Repr

/-- Errors a store call can return. -/
inductive StoreError where
  | ErrUserExists
  | uniqueConstraint
  | driver
deriving DecidableEq, Repr

/-! ## Library parameters -/

/-- Signing methods registered by `golang-jwt/jwt/v5`. -/
inductive SigningMethod where
  | HS256 | HS384 | HS512
  | RS256 | RS384 | RS512
  | PS256 | PS384 | PS512
  | ES256 | ES384 | ES512
  | EdDSA
  | none
deriving DecidableEq, Repr

/-- The Go type of a signing-method value, the thing a type assertion inspects. -/
inductive MethodType where
  | SigningMethodHMAC
  | SigningMethodRSA
  | SigningMethodRSAPSS
  | SigningMethodECDSA
  | SigningMethodEd25519
  | signingMethodNone
deriving DecidableEq, Repr

/-- Dynamic type of each registered signing method. -/
def SigningMethod.goType : SigningMethod → MethodType
  | .HS256 | .HS384 | .HS512 => .SigningMethodHMAC
  | .RS256 | .RS384 | .RS512 => .SigningMethodRSA
  | .PS256 | .PS384 | .PS512 => .SigningMethodRSAPSS
  | .ES256 | .ES384 | .ES512 => .SigningMethodECDSA
  | .EdDSA => .SigningMethodEd25519
  | .none => .signingMethodNone

/-- Value of the header field `alg` of each signing method (`Alg()`). -/
def SigningMethod.Alg : SigningMethod → String
  | .HS256 => "HS256" | .HS384 => "HS384" | .HS512 => "HS512"
  | .RS256 => "RS256" | .RS384 => "RS384" | .RS512 => "RS512"
  | .PS256 => "PS256" | .PS384 => "PS384" | .PS512 => "PS512"
  | .ES256 => "ES256" | .ES384 => "ES384" | .ES512 => "ES512"
  | .EdDSA => "EdDSA"
  | .none => "none"

/-- The claims bag `jwt.MapClaims` with the four keys the token manager writes. -/
structure MapClaims where
  sub : String
  username : String
  exp : Int
  iat : Int
deriving DecidableEq, Repr

/-- A decoded `jwt.Token`: method resolved from the header, claims, and the two
strings signature verification works on. -/
structure Token where
  Method : SigningMethod
  Claims : MapClaims
  signingString : String
  Signature : String
  Valid : Bool
deriving DecidableEq, Repr

/-- Library functions the repository calls and does not define. -/
structure Lib where
  /-- Go `sha256.Sum256([]byte(s))`, the 32-byte digest. -/
  Sum256 : String → List Byte
  /-- Go `bcrypt.CompareHashAndPassword(hash, password) == nil`. -/
  CompareHashAndPassword : String → String → Bool
  /-- Go `bcrypt.GenerateFromPassword(password, cost)` given the salt bytes drawn. -/
  GenerateFromPassword : String → List Byte → Except String String
  /-- Go `jwt.NewWithClaims(method, claims).SignedString(key)`. -/
  SignedString : SigningMethod → MapClaims → List Byte → Except String String
  /-- Go `Parser.ParseUnverified`: split and decode a compact token. -/
  ParseUnverified : String → Except String Token
  /-- Go `Method.Verify(signingString, signature, key) == nil`. -/
  Verify : SigningMethod → String → String → List Byte → Bool
  /-- The claims validator (`exp`, `iat`, `nbf` against the clock) accepts the claims. -/
  Validate : MapClaims → Time → Bool

/-! ## `encoding/hex` -/

/-- The table `hextable` of `encoding/hex`. -/
def hextable : List Char := "0123456789abcdef".toList

/-- The two hex digits of one byte. -/
def hexByte (b : Byte) : List Char :=
  [hextable.getD (b.val / 16) '0', hextable.getD (b.val % 16) '0']

/-- Go `hex.EncodeToString`. -/
def EncodeToString (bs : List Byte) : String :=
  String.mk (bs.flatMap hexByte)

/-- The SHA-256 hex digest of a raw token, as both the refresh handler and
`GenerateRefreshToken` compute it: `h := sha256.Sum256([]byte(raw))` followed by
`hex.EncodeToString(h[:])`. -/
def sha256Hex (lib : Lib) (raw : String) : String :=
  EncodeToString (lib.Sum256 raw)

/-! ## `internal/store/sqlite` -/

/-- Hand one statement to the driver: when the driver fails the statement has no
effect and the call returns an error, otherwise the statement runs. -/
def exec {α : Type} (driverFails : Bool) (db : DB)
    (stmt : DB → Except StoreError α × DB) : Except StoreError α × DB :=
  if driverFails then (.error .driver, db) else stmt db

/-- Store method `CreateUser`: insert a user; `username` is `UNIQUE`. -/
def CreateUser (driverFails : Bool) (now : Time) (db : DB) (username passwordHash : String) :
    Except StoreError Int × DB :=
  exec driverFails db fun db =>
    if db.users.any (fun u => u.Username = username) then
      (.error .ErrUserExists, db)
    else
      let id := db.userSeq + 1
      (.ok id,
        { db with
          users := db.users ++ [{ ID := id, Username := username,
                                  Password := passwordHash, CreatedAt := now }],
          userSeq := id })

/-- Store method `GetUserByUsername`: the row with that username, or `nil`. -/
def GetUserByUsername (driverFails : Bool) (db : DB) (username : String) :
    Except StoreError (Option User) × DB :=
  exec driverFails db fun db =>
    (.ok (db.users.find? (fun u => u.Username = username)), db)

/-- The row an `INSERT INTO refresh_tokens` appends: the next `AUTOINCREMENT` id,
`revoked` 0 and `replaced_by` `NULL`. -/
def newRow (db : DB) (now : Time) (userID : Int) (tokenHash : String) (expiresAt : Time)
    (deviceInfo : Option String) : RefreshToken :=
  { ID := db.tokenSeq + 1, UserID := userID, TokenHash := tokenHash, CreatedAt := now,
    ExpiresAt := expiresAt, Revoked := false, ReplacedBy := none, DeviceInfo := deviceInfo }

/-- The `INSERT INTO refresh_tokens` shared by `StoreRefreshToken` and
`CreateRefreshToken`: `token_hash` is `UNIQUE`, `revoked` is written as 0 and
`replaced_by` is left `NULL`. -/
def insertRefreshToken (now : Time) (userID : Int) (tokenHash : String) (expiresAt : Time)
    (deviceInfo : Option String) (db : DB) : Except StoreError Int × DB :=
  if db.refresh_tokens.any (fun r => r.TokenHash = tokenHash) then
    (.error .uniqueConstraint, db)
  else
    (.ok (db.tokenSeq + 1),
      { db with
        refresh_tokens := db.refresh_tokens ++
          [newRow db now userID tokenHash expiresAt deviceInfo],
        tokenSeq := db.tokenSeq + 1 })

/-- Store method `StoreRefreshToken`. -/
def StoreRefreshToken (driverFails : Bool) (now : Time) (db : DB) (userID : Int)
    (tokenHash : String) (expiresAt : Time) : Except StoreError Unit × DB :=
  exec driverFails db fun db =>
    match insertRefreshToken now userID tokenHash expiresAt none db with
    | (.ok _, db') => (.ok (), db')
    | (.error e, db') => (.error e, db')

/-- Store method `CreateRefreshToken`: insert a row and return its id. -/
def CreateRefreshToken (driverFails : Bool) (now : Time) (db : DB) (userID : Int)
    (tokenHash : String) (expiresAt : Time) (deviceInfo : Option String) :
    Except StoreError Int × DB :=
  exec driverFails db (insertRefreshToken now userID tokenHash expiresAt deviceInfo)

/-- Store method `GetRefreshTokenByHash`: the row with that hash, or `nil`. -/
def GetRefreshTokenByHash (driverFails : Bool) (db : DB) (tokenHash : String) :
    Except StoreError (Option RefreshToken) × DB :=
  exec driverFails db fun db =>
    (.ok (db.refresh_tokens.find? (fun r => r.TokenHash = tokenHash)), db)

/-- The statement `UPDATE refresh_tokens SET revoked = 1, replaced_by = ? WHERE id = ?`. -/
def markRow (id replacedBy : Int) (r : RefreshToken) : RefreshToken :=
  if r.ID = id then { r with Revoked := true, ReplacedBy := some replacedBy } else r

/-- Store method `MarkRefreshTokenRevokedAndSetReplacement`. -/
def MarkRefreshTokenRevokedAndSetReplacement (driverFails : Bool) (db : DB)
    (id replacedBy : Int) : Except StoreError Unit × DB :=
  exec driverFails db fun db =>
    (.ok (), { db with refresh_tokens := db.refresh_tokens.map (markRow id replacedBy) })

/-- The statement `UPDATE refresh_tokens SET revoked = 1 WHERE user_id = ?`. -/
def revokeRow (userID : Int) (r : RefreshToken) : RefreshToken :=
  if r.UserID = userID then { r with Revoked := true } else r

/-- Store method `RevokeAllRefreshTokensForUser`. -/
def RevokeAllRefreshTokensForUser (driverFails : Bool) (db : DB) (userID : Int) :
    Except StoreError Unit × DB :=
  exec driverFails db fun db =>
    (.ok (), { db with refresh_tokens := db.refresh_tokens.map (revokeRow userID) })

/-! ## `internal/token` -/

/-- The token manager; `NewManager` stores the bytes of the configured secret. -/
structure TokenManager where
  jwtSecret : List Byte
deriving DecidableEq, Repr

/-- The claims `GenerateAccessToken` builds.  `nowExp` is the clock reading of the
`exp` entry and `nowIat` the later reading of the `iat` entry; the duration
`time.Duration(ttlSeconds) * time.Second` is an `int64` product. -/
def accessClaims (userID : Int) (username : String) (ttlSeconds : Int)
    (nowExp nowIat : Time) : MapClaims :=
  { sub := toString userID,
    username := username,
    exp := Unix (nowExp + wrap64 (ttlSeconds * Second)),
    iat := Unix nowIat }

/-- Method `TokenManager.GenerateAccessToken`: a signed HS256 token. -/
def TokenManager.GenerateAccessToken (lib : Lib) (m : TokenManager) (nowExp nowIat : Time)
    (userID : Int) (username : String) (ttlSeconds : Int) : Except String String :=
  if m.jwtSecret.length = 0 then
    .error "jwt secret not configured"
  else
    lib.SignedString .HS256 (accessClaims userID username ttlSeconds nowExp nowIat) m.jwtSecret

/-- The key-selection callback `VerifyAccessToken` passes to `jwt.Parse`. -/
def keyFunc (m : TokenManager) (t : Token) : Except String (List Byte) :=
  if t.Method.goType = .SigningMethodHMAC then
    .ok m.jwtSecret
  else
    .error ("unexpected signing method: " ++ t.Method.Alg)

/-- Go `jwt.Parse(tokenStr, keyFunc)` with the default parser: decode, ask the callback
for the key, verify the signature, validate the claims, set `Valid`. -/
def Parse (lib : Lib) (now : Time) (tokenStr : String)
    (keyFunc : Token → Except String (List Byte)) : Except String Token :=
  match lib.ParseUnverified tokenStr with
  | .error e => .error e
  | .ok token =>
    match keyFunc token with
    | .error e => .error ("token is unverifiable: error while executing keyfunc: " ++ e)
    | .ok key =>
      if !lib.Verify token.Method token.signingString token.Signature key then
        .error "token signature is invalid"
      else if !lib.Validate token.Claims now then
        .error "token has invalid claims"
      else
        .ok { token with Valid := true }

/-- Method `TokenManager.VerifyAccessToken`. -/
def TokenManager.VerifyAccessToken (lib : Lib) (m : TokenManager) (now : Time)
    (tokenStr : String) : Except String MapClaims :=
  if m.jwtSecret.length = 0 then
    .error "jwt secret not configured"
  else
    match Parse lib now tokenStr (keyFunc m) with
    | .error e => .error e
    | .ok token => if token.Valid then .ok token.Claims else .error "invalid token"

/-- The 32-byte buffer `b` after `rand.Read(b)` has filled it. -/
def randomBuffer (fill : Fin 32 → Byte) : List Byte := List.ofFn fill

/-- Function `GenerateRefreshToken`: `rand` is what `rand.Read` does with the 32-byte
buffer, `none` when it fails.  Returns `(rawToken, hashedToken)`. -/
def GenerateRefreshToken (lib : Lib) (rand : Option (Fin 32 → Byte)) :
    Except String (String × String) :=
  match rand with
  | none => .error "rand"
  | some b =>
    let raw := EncodeToString (randomBuffer b)
    let hash := sha256Hex lib raw
    .ok (raw, hash)

/-! ## `internal/handlers` -/

/-- An HTTP request as a handler sees it: the method, and what the JSON decoder makes
of the body (`none` when decoding fails). -/
structure Request (β : Type) where
  Method : String
  Body : Option β

/-- What a handler writes after the status line. -/
inductive Body (β : Type) where
  | error (code : String)
  | payload (b : β)
deriving DecidableEq, Repr

/-- An HTTP response: status code and body. -/
structure Response (β : Type) where
  status : Nat
  body : Body β
deriving DecidableEq, Repr

/-- Go `RefreshRequest`. -/
structure RefreshRequest where
  RefreshToken : String
deriving DecidableEq, Repr

/-- Go `RefreshResponse` and `LoginResponse`, which have the same fields. -/
structure TokenResponse where
  UserID : Int
  AccessToken : String
  AccessExpiresIn : Int
  RefreshToken : String
  RefreshExpiresIn : Int
deriving DecidableEq, Repr

/-- Go `LoginRequest` and `RegisterRequest`, which have the same fields. -/
structure LoginRequest where
  Username : String
  Password : String
deriving DecidableEq, Repr

/-- Go `RegisterResp`. -/
structure RegisterResp where
  UserID : Int
  Username : String
deriving DecidableEq, Repr

/-- Environment of one run of the refresh handler, one field per call site. -/
structure RefreshEnv where
  /-- Driver failure in `GetRefreshTokenByHash`. -/
  getFails : Bool
  /-- Clock reading of the expiry test. -/
  nowCheck : Time
  /-- Driver failure in `RevokeAllRefreshTokensForUser`. -/
  revokeAllFails : Bool
  /-- Driver failure in `MarkRefreshTokenRevokedAndSetReplacement`. -/
  markFails : Bool
  /-- Outcome of `rand.Read`. -/
  rand : Option (Fin 32 → Byte)
  /-- Clock reading of `newExpires`. -/
  nowIssue : Time
  /-- Driver failure in `CreateRefreshToken`. -/
  createFails : Bool
  /-- Clock reading of `created_at` in `CreateRefreshToken`. -/
  nowInsert : Time
  /-- Clock reading of the access token's `exp`. -/
  nowExp : Time
  /-- Clock reading of the access token's `iat`. -/
  nowIat : Time

/-- Go `MakeRefreshHandler(us, tm)` with `us` the SQLite store: one run of the handler
on database `db` and request `r`; returns the response and the database afterwards. -/
def MakeRefreshHandler (lib : Lib) (tm : TokenManager) (env : RefreshEnv) (db : DB)
    (r : Request RefreshRequest) : Response TokenResponse × DB :=
  if r.Method ≠ "POST" then
    (⟨405, .error "method_not_allowed"⟩, db)
  else
    match r.Body with
    | none => (⟨400, .error "invalid_json"⟩, db)
    | some req =>
      if req.RefreshToken = "" then
        (⟨400, .error "refresh_token_required"⟩, db)
      else
        -- hash incoming token
        let hashHex := sha256Hex lib req.RefreshToken
        match GetRefreshTokenByHash env.getFails db hashHex with
        | (.error _, db) => (⟨500, .error "internal_error"⟩, db)
        | (.ok none, db) => (⟨401, .error "invalid_refresh_token"⟩, db)
        | (.ok (some rt), db) =>
          -- if token is already revoked -> reuse detected => revoke all and fail
          if rt.Revoked then
            let db := (RevokeAllRefreshTokensForUser env.revokeAllFails db rt.UserID).2
            (⟨401, .error "invalid_refresh_token"⟩, db)
          -- if expired
          else if rt.ExpiresAt < env.nowCheck then
            let db := (MarkRefreshTokenRevokedAndSetReplacement env.markFails db rt.ID 0).2
            (⟨401, .error "refresh_token_expired"⟩, db)
          else
            -- all good -> rotate: create new refresh token
            match GenerateRefreshToken lib env.rand with
            | .error _ => (⟨500, .error "token_generation_failed"⟩, db)
            | .ok (newRaw, newHash) =>
              let newExpires := env.nowIssue + 24 * Hour
              match CreateRefreshToken env.createFails env.nowInsert db rt.UserID newHash
                      newExpires none with
              | (.error _, db) => (⟨500, .error "internal_error"⟩, db)
              | (.ok newID, db) =>
                -- mark old revoked and set replacement
                match MarkRefreshTokenRevokedAndSetReplacement env.markFails db rt.ID newID with
                | (.error _, db) =>
                  let db := (RevokeAllRefreshTokensForUser env.revokeAllFails db rt.UserID).2
                  (⟨500, .error "internal_error"⟩, db)
                | (.ok _, db) =>
                  -- create a new access token (JWT)
                  match tm.GenerateAccessToken lib env.nowExp env.nowIat rt.UserID "" 900 with
                  | .error _ => (⟨500, .error "token_generation_failed"⟩, db)
                  | .ok accessToken =>
                    (⟨200, .payload
                        { UserID := rt.UserID,
                          AccessToken := accessToken,
                          AccessExpiresIn := 900,
                          RefreshToken := newRaw,
                          RefreshExpiresIn := 86400 }⟩, db)

/-- Environment of one run of the login handler, one field per call site. -/
structure LoginEnv where
  /-- Driver failure in `GetUserByUsername`. -/
  getUserFails : Bool
  /-- Clock reading of the access token's `exp`. -/
  nowExp : Time
  /-- Clock reading of the access token's `iat`. -/
  nowIat : Time
  /-- Outcome of `rand.Read`. -/
  rand : Option (Fin 32 → Byte)
  /-- Clock reading of `expires`. -/
  nowIssue : Time
  /-- Driver failure in `StoreRefreshToken`. -/
  storeFails : Bool
  /-- Clock reading of `created_at` in `StoreRefreshToken`. -/
  nowInsert : Time

/-- The helper `trim` of `login.go`, which returns its argument. -/
def trim (s : String) : String := s

/-- Go `MakeLoginHandler(us, tm)` with `us` the SQLite store: one run of the handler. -/
def MakeLoginHandler (lib : Lib) (tm : TokenManager) (env : LoginEnv) (db : DB)
    (r : Request LoginRequest) : Response TokenResponse × DB :=
  if r.Method ≠ "POST" then
    (⟨405, .error "method_not_allowed"⟩, db)
  else
    match r.Body with
    | none => (⟨400, .error "invalid_json"⟩, db)
    | some req =>
      let username := trim req.Username
      let password := trim req.Password
      if username = "" ∨ password = "" then
        (⟨400, .error "username_and_password_required"⟩, db)
      else
        match GetUserByUsername env.getUserFails db username with
        | (.error _, db) => (⟨500, .error "internal_error"⟩, db)
        | (.ok none, db) => (⟨401, .error "invalid_credentials"⟩, db)
        | (.ok (some user), db) =>
          -- verify password
          if !lib.CompareHashAndPassword user.Password password then
            (⟨401, .error "invalid_credentials"⟩, db)
          else
            -- 1) create access token (JWT), TTL 900s
            match tm.GenerateAccessToken lib env.nowExp env.nowIat user.ID user.Username 900 with
            | .error _ => (⟨500, .error "token_generation_failed"⟩, db)
            | .ok access =>
              -- 2) create refresh token (opaque), TTL 1 day
              match GenerateRefreshToken lib env.rand with
              | .error _ => (⟨500, .error "token_generation_failed"⟩, db)
              | .ok (raw, hash) =>
                let expires := env.nowIssue + 24 * Hour
                match StoreRefreshToken env.storeFails env.nowInsert db user.ID hash expires with
                | (.error _, db) => (⟨500, .error "internal_error"⟩, db)
                | (.ok _, db) =>
                  (⟨200, .payload
                      { UserID := user.ID,
                        AccessToken := access,
                        AccessExpiresIn := 900,
                        RefreshToken := raw,
                        RefreshExpiresIn := 86400 }⟩, db)

/-- Environment of one run of the register handler, one field per call site. -/
structure RegisterEnv where
  /-- Driver failure in `GetUserByUsername`. -/
  getUserFails : Bool
  /-- Salt bytes drawn by `bcrypt.GenerateFromPassword`. -/
  salt : List Byte
  /-- Driver failure in `CreateUser`. -/
  createFails : Bool
  /-- Clock reading of `created_at` in `CreateUser`. -/
  nowInsert : Time

/-- Go `MakeRegisterHandler(us)` with `us` the SQLite store: one run of the handler. -/
def MakeRegisterHandler (lib : Lib) (env : RegisterEnv) (db : DB)
    (r : Request LoginRequest) : Response RegisterResp × DB :=
  if r.Method ≠ "POST" then
    (⟨405, .error "method_not_allowed"⟩, db)
  else
    match r.Body with
    | none => (⟨400, .error "invalid_json"⟩, db)
    | some req =>
      let username := trim req.Username
      let password := trim req.Password
      if username = "" ∨ password = "" then
        (⟨400, .error "username_and_password_required"⟩, db)
      else
        -- check exist
        match GetUserByUsername env.getUserFails db username with
        | (.error _, db) => (⟨500, .error "internal_error"⟩, db)
        | (.ok (some _), db) => (⟨409, .error "user_already_exists"⟩, db)
        | (.ok none, db) =>
          -- hash
          match lib.GenerateFromPassword password env.salt with
          | .error _ => (⟨500, .error "internal_error"⟩, db)
          | .ok hash =>
            match CreateUser env.createFails env.nowInsert db username hash with
            | (.error .ErrUserExists, db) => (⟨409, .error "user_already_exists"⟩, db)
            | (.error _, db) => (⟨500, .error "internal_error"⟩, db)
            | (.ok id, db) => (⟨201, .payload { UserID := id, Username := username }⟩, db)

/-! ## Runs of the refresh handler that overlap

The handler makes its store calls one statement at a time, outside any transaction, so
two runs can interleave between statements.  `Thread` is a run of `MakeRefreshHandler`
cut at its store calls: each step makes one store call and carries on to the next. -/

/-- Where a run of the refresh handler stands: in front of one of its store calls, or
finished with a response. -/
inductive Thread where
  /-- In front of `GetRefreshTokenByHash`. -/
  | start
  /-- Reuse detected; in front of `RevokeAllRefreshTokensForUser`. -/
  | cascade (rt : RefreshToken)
  /-- Token expired; in front of `MarkRefreshTokenRevokedAndSetReplacement(rt.ID, 0)`. -/
  | expire (rt : RefreshToken)
  /-- New token generated; in front of `CreateRefreshToken`. -/
  | create (rt : RefreshToken) (newRaw newHash : String)
  /-- Replacement inserted; in front of `MarkRefreshTokenRevokedAndSetReplacement`. -/
  | mark (rt : RefreshToken) (newRaw : String) (newID : Int)
  /-- Marking failed; in front of the fallback `RevokeAllRefreshTokensForUser`. -/
  | fallback (rt : RefreshToken)
  /-- Response written. -/
  | done (resp : Response TokenResponse)
deriving DecidableEq, Repr

/-- One step of a run of the refresh handler: the store call the run stands in front of,
and the code of `MakeRefreshHandler` up to the next store call. -/
def Thread.step (lib : Lib) (tm : TokenManager) (env : RefreshEnv)
    (r : Request RefreshRequest) : Thread → DB → Thread × DB
  | .start, db =>
    if r.Method ≠ "POST" then
      (.done ⟨405, .error "method_not_allowed"⟩, db)
    else
      match r.Body with
      | none => (.done ⟨400, .error "invalid_json"⟩, db)
      | some req =>
        if req.RefreshToken = "" then
          (.done ⟨400, .error "refresh_token_required"⟩, db)
        else
          match GetRefreshTokenByHash env.getFails db (sha256Hex lib req.RefreshToken) with
          | (.error _, db) => (.done ⟨500, .error "internal_error"⟩, db)
          | (.ok none, db) => (.done ⟨401, .error "invalid_refresh_token"⟩, db)
          | (.ok (some rt), db) =>
            if rt.Revoked then
              (.cascade rt, db)
            else if rt.ExpiresAt < env.nowCheck then
              (.expire rt, db)
            else
              match GenerateRefreshToken lib env.rand with
              | .error _ => (.done ⟨500, .error "token_generation_failed"⟩, db)
              | .ok (newRaw, newHash) => (.create rt newRaw newHash, db)
  | .cascade rt, db =>
    (.done ⟨401, .error "invalid_refresh_token"⟩,
      (RevokeAllRefreshTokensForUser env.revokeAllFails db rt.UserID).2)
  | .expire rt, db =>
    (.done ⟨401, .error "refresh_token_expired"⟩,
      (MarkRefreshTokenRevokedAndSetReplacement env.markFails db rt.ID 0).2)
  | .create rt newRaw newHash, db =>
    match CreateRefreshToken env.createFails env.nowInsert db rt.UserID newHash
            (env.nowIssue + 24 * Hour) none with
    | (.error _, db) => (.done ⟨500, .error "internal_error"⟩, db)
    | (.ok newID, db) => (.mark rt newRaw newID, db)
  | .mark rt newRaw newID, db =>
    match MarkRefreshTokenRevokedAndSetReplacement env.markFails db rt.ID newID with
    | (.error _, db) => (.fallback rt, db)
    | (.ok _, db) =>
      match tm.GenerateAccessToken lib env.nowExp env.nowIat rt.UserID "" 900 with
      | .error _ => (.done ⟨500, .error "token_generation_failed"⟩, db)
      | .ok accessToken =>
        (.done ⟨200, .payload
            { UserID := rt.UserID,
              AccessToken := accessToken,
              AccessExpiresIn := 900,
              RefreshToken := newRaw,
              RefreshExpiresIn := 86400 }⟩, db)
  | .fallback rt, db =>
    (.done ⟨500, .error "internal_error"⟩,
      (RevokeAllRefreshTokensForUser env.revokeAllFails db rt.UserID).2)
  | .done resp, db => (.done resp, db)

/-- A run of the refresh handler taking `n` steps with nothing in between. -/
def Thread.run (lib : Lib) (tm : TokenManager) (env : RefreshEnv)
    (r : Request RefreshRequest) : Nat → Thread × DB → Thread × DB
  | 0, c => c
  | n + 1, c => Thread.run lib tm env r n (Thread.step lib tm env r c.1 c.2)

/-- Which of two runs takes the next step. -/
inductive Turn where
  | A
  | B
deriving DecidableEq, Repr

/-- Two runs of the refresh handler on one database. -/
structure Config where
  a : Thread
  b : Thread
  db : DB
deriving DecidableEq, Repr

/-- The run whose turn it is takes one step. -/
def Config.step (lib : Lib) (tm : TokenManager) (eA eB : RefreshEnv)
    (rA rB : Request RefreshRequest) (c : Config) : Turn → Config
  | .A => { c with a := (Thread.step lib tm eA rA c.a c.db).1,
                   db := (Thread.step lib tm eA rA c.a c.db).2 }
  | .B => { c with b := (Thread.step lib tm eB rB c.b c.db).1,
                   db := (Thread.step lib tm eB rB c.b c.db).2 }

/-- Two runs of the refresh handler started together on `db` and stepped in the order
the schedule gives. -/
def interleave (lib : Lib) (tm : TokenManager) (eA eB : RefreshEnv)
    (rA rB : Request RefreshRequest) (sched : List Turn) (db : DB) : Config :=
  sched.foldl (Config.step lib tm eA eB rA rB) ⟨.start, .start, db⟩

/-- No store call of the run fails in the driver. -/
def RefreshEnv.Healthy (env : RefreshEnv) : Prop :=
  env.getFails = false ∧ env.revokeAllFails = false ∧ env.markFails = false ∧
    env.createFails = false

/-- The steps a run in the middle of a rotation still has to take. -/
def Thread.remaining : Thread → Nat
  | .create _ _ _ => 2
  | .mark _ _ _ => 1
  | _ => 0

/-- A run that has seen row `rt` live and is rotating it to raw token `raw` with hash
`h`: in front of the insert (and `h` is not in the table yet), in front of the mark, or
finished with status 200. -/
def Thread.Rotating (rt : RefreshToken) (raw h : String) (db : DB) : Thread → Prop
  | .create rt' raw' h' =>
    rt' = rt ∧ raw' = raw ∧ h' = h ∧ ∀ r ∈ db.refresh_tokens, r.TokenHash ≠ h
  | .mark rt' raw' _ => rt' = rt ∧ raw' = raw
  | .done resp => resp.status = 200
  | _ => False

/-! ## Sequences of requests -/

/-- One request served by the server of `internal/server`, with the environment of
its run.  The protected backend endpoint does not touch the store and is left out. -/
inductive Op where
  | register (env : RegisterEnv) (r : Request LoginRequest)
  | login (env : LoginEnv) (r : Request LoginRequest)
  | refresh (env : RefreshEnv) (r : Request RefreshRequest)

/-- The database after serving one request. -/
def Op.apply (lib : Lib) (tm : TokenManager) (db : DB) : Op → DB
  | .register env r => (MakeRegisterHandler lib env db r).2
  | .login env r => (MakeLoginHandler lib tm env db r).2
  | .refresh env r => (MakeRefreshHandler lib tm env db r).2

/-- The database after serving a list of requests one after the other. -/
def serve (lib : Lib) (tm : TokenManager) (db : DB) (ops : List Op) : DB :=
  ops.foldl (Op.apply lib tm) db

/-! ## Predicates on databases -/

/-- The constraints SQLite maintains on `refresh_tokens`: `id` is a primary key handed
out by `AUTOINCREMENT` (distinct, positive, at most the counter) and `token_hash` is
`UNIQUE`. -/
structure DB.WF (db : DB) : Prop where
  ids_nodup : (db.refresh_tokens.map (fun r => r.ID)).Nodup
  hashes_nodup : (db.refresh_tokens.map (fun r => r.TokenHash)).Nodup
  ids_pos : ∀ r ∈ db.refresh_tokens, 0 < r.ID
  ids_le : ∀ r ∈ db.refresh_tokens, r.ID ≤ db.tokenSeq
  seq_nonneg : 0 ≤ db.tokenSeq

/-- The row of `refresh_tokens` with the given id, if any. -/
def DB.tokenById (db : DB) (id : Int) : Option RefreshToken :=
  db.refresh_tokens.find? (fun r => r.ID = id)

/-- The row of `refresh_tokens` with the given hash, if any (what the `SELECT` of
`GetRefreshTokenByHash` returns). -/
def DB.tokenByHash (db : DB) (h : String) : Option RefreshToken :=
  db.refresh_tokens.find? (fun r => r.TokenHash = h)

/-- What every store statement does to `refresh_tokens`: existing rows keep their id,
owner and hash and stay revoked once revoked; new rows are appended. -/
def Evolves (db db' : DB) : Prop :=
  ∃ (f : RefreshToken → RefreshToken) (extra : List RefreshToken),
    db'.refresh_tokens = db.refresh_tokens.map f ++ extra ∧
    ∀ r, (f r).ID = r.ID ∧ (f r).UserID = r.UserID ∧ (f r).TokenHash = r.TokenHash ∧
      (r.Revoked = true → (f r).Revoked = true)

/-- The three states of the presented token's record for which the refresh handler
rejects the request. -/
inductive Rejection where
  /-- No row has the digest of the presented token (`rt == nil`). -/
  | unknown
  /-- The row is already revoked (`rt.Revoked`). -/
  | revoked
  /-- The row is not revoked and `rt.ExpiresAt.Before(time.Now())`. -/
  | expired
deriving DecidableEq, Repr

/-- The record of raw token `raw` is in the given rejected state when the handler runs
on `db` in environment `env`. -/
def Rejected (lib : Lib) (env : RefreshEnv) (db : DB) (raw : String) : Rejection → Prop
  | .unknown => db.tokenByHash (sha256Hex lib raw) = none
  | .revoked => ∃ rt, db.tokenByHash (sha256Hex lib raw) = some rt ∧ rt.Revoked = true
  | .expired => ∃ rt, db.tokenByHash (sha256Hex lib raw) = some rt ∧ rt.Revoked = false ∧
      rt.ExpiresAt < env.nowCheck

/-- A relation between the database before and after a statement that is reflexive and
transitive and holds across every statement the store issues. -/
structure StoreInvariant (P : DB → DB → Prop) : Prop where
  refl : ∀ db, P db db
  trans : ∀ {a b c : DB}, P a b → P b c → P a c
  insert : ∀ (now : Time) (u : Int) (h : String) (e : Time) (d : Option String) (db : DB),
    P db (insertRefreshToken now u h e d db).2
  mark : ∀ (db : DB) (id rb : Int),
    P db { db with refresh_tokens := db.refresh_tokens.map (markRow id rb) }
  revokeAll : ∀ (db : DB) (u : Int),
    P db { db with refresh_tokens := db.refresh_tokens.map (revokeRow u) }
  users : ∀ (db : DB) (us : List User) (seq : Int), P db { db with users := us, userSeq := seq }

/-! ## Concrete inputs -/

/-- The database after `EnsureUsersTable` and `EnsureRefreshTokensTable` have created the
two tables. -/
def emptyDB : DB where
  users := []
  userSeq := 0
  refresh_tokens := []
  tokenSeq := 0


/-- A stand-in for the library, used to evaluate the definitions on concrete inputs:
the digest of a string is the list of its character codes, every password check
passes, signing returns a fixed string and every signature verifies. -/
def demoLib : Lib where
  Sum256 := fun s => s.toList.map (fun c => Fin.ofNat c.toNat)
  CompareHashAndPassword := fun _ _ => true
  GenerateFromPassword := fun p _ => .ok p
  SignedString := fun _ _ _ => .ok "jwt"
  ParseUnverified := fun _ => .error "malformed"
  Verify := fun _ _ _ _ => true
  Validate := fun _ _ => true

/-- A token manager with a one-byte secret. -/
def demoTM : TokenManager := ⟨[1]⟩

/-- An environment of the refresh handler in which no driver call fails, the random
bytes are all zero and every clock reading is 50. -/
def demoRefreshEnv : RefreshEnv where
  getFails := false
  nowCheck := 50
  revokeAllFails := false
  markFails := false
  rand := some (fun _ => 0)
  nowIssue := 50
  createFails := false
  nowInsert := 50
  nowExp := 50
  nowIat := 50

/-- A database with one user and one live refresh token, the digest of `"a"`. -/
def demoDB : DB where
  users := [⟨1, "u", "pw", 0⟩]
  userSeq := 1
  refresh_tokens := [⟨1, 1, "61", 0, 100, false, none, none⟩]
  tokenSeq := 1

/-- The environment `demoRefreshEnv` with the expiry test read at time 200. -/
def demoLateEnv : RefreshEnv := { demoRefreshEnv with nowCheck := 200 }

/-- A database in which user 1 holds a rotated token (the digest of `"a"`, replaced by
row 2) and its live replacement, and user 2 holds a live token. -/
def demoReusedDB : DB where
  users := [⟨1, "u", "pw", 0⟩, ⟨2, "v", "pw", 0⟩]
  userSeq := 2
  refresh_tokens :=
    [⟨1, 1, "61", 0, 100, true, some 2, none⟩,
     ⟨2, 1, "62", 0, 100, false, none, none⟩,
     ⟨3, 2, "63", 0, 100, false, none, none⟩]
  tokenSeq := 3

/-- A database in which user 1 holds two live tokens, the digests of `"a"` and `"b"`. -/
def demoTwoDB : DB where
  users := [⟨1, "u", "pw", 0⟩]
  userSeq := 1
  refresh_tokens :=
    [⟨1, 1, "61", 0, 100, false, none, none⟩,
     ⟨2, 1, "62", 0, 300, false, none, none⟩]
  tokenSeq := 2

/-- An environment of the login handler in which no driver call fails, the random bytes
are all zero and every clock reading is 50. -/
def demoLoginEnv : LoginEnv where
  getUserFails := false
  nowExp := 50
  nowIat := 50
  rand := some (fun _ => 0)
  nowIssue := 50
  storeFails := false
  nowInsert := 50

/-- A login request of user `u`. -/
def demoLoginReq : Request LoginRequest := ⟨"POST", some ⟨"u", "pw"⟩⟩

/-- The raw token made of the byte `x` repeated 32 times. -/
def demoRaw (x : Byte) : String := EncodeToString (randomBuffer (fun _ => x))

/-- The scenario of two logins and four refreshes, started on `demoDB`: the database
after the first login, which issues `demoRaw 0`. -/
def demoS₁ : DB := (MakeLoginHandler demoLib demoTM demoLoginEnv demoDB demoLoginReq).2

/-- The scenario after the second login, which issues `demoRaw 1`. -/
def demoS₂ : DB :=
  (MakeLoginHandler demoLib demoTM { demoLoginEnv with rand := some (fun _ => 1) } demoS₁
    demoLoginReq).2

/-- The scenario after `demoRaw 0` has been refreshed, which issues `demoRaw 2`. -/
def demoS₃ : DB :=
  (MakeRefreshHandler demoLib demoTM { demoRefreshEnv with rand := some (fun _ => 2) } demoS₂
    ⟨"POST", some ⟨demoRaw 0⟩⟩).2

/-- The scenario after `demoRaw 0` has been presented a second time. -/
def demoS₄ : DB :=
  (MakeRefreshHandler demoLib demoTM demoRefreshEnv demoS₃ ⟨"POST", some ⟨demoRaw 0⟩⟩).2

/-- The scenario after `demoRaw 2` has been presented. -/
def demoS₅ : DB :=
  (MakeRefreshHandler demoLib demoTM demoRefreshEnv demoS₄ ⟨"POST", some ⟨demoRaw 2⟩⟩).2

/-- The library `demoLib` with a decoder that returns an HS384 token for every string. -/
def demoLibHS384 : Lib :=
  { demoLib with ParseUnverified := fun _ => .ok ⟨.HS384, ⟨"1", "u", 950, 50⟩, "h.c", "s", false⟩ }

/-- The library `demoLib` with a decoder that returns an RS256 token for every string. -/
def demoLibRS256 : Lib :=
  { demoLib with ParseUnverified := fun _ => .ok ⟨.RS256, ⟨"1", "u", 950, 50⟩, "h.c", "s", false⟩ }

/-- The environment `demoRefreshEnv` with a driver failure in the mark call. -/
def demoMarkFailsEnv : RefreshEnv := { demoRefreshEnv with markFails := true }

/-- The environment `demoRefreshEnv` with the random bytes all equal to 1. -/
def demoRefreshEnvB : RefreshEnv := { demoRefreshEnv with rand := some (fun _ => 1) }

/-- The environment `demoRefreshEnv` with a driver failure in the revoke-all call. -/
def demoRevokeAllFailsEnv : RefreshEnv := { demoRefreshEnv with revokeAllFails := true }

/-- The environment `demoLateEnv` with a driver failure in the mark call. -/
def demoLateMarkFailsEnv : RefreshEnv := { demoLateEnv with markFails := true }

/-- The environment `demoRefreshEnv` with a driver failure in the mark call and in the
revoke-all call. -/
def demoBothFailEnv : RefreshEnv :=
  { demoRefreshEnv with markFails := true, revokeAllFails := true }

/-- The environment `demoRefreshEnv` with the random bytes all equal to 3. -/
def demoRefreshEnvD : RefreshEnv := { demoRefreshEnv with rand := some (fun _ => 3) }


/-! # Theorems -/

/-! ### The driver -/


@[simp] theorem exec_ok {α : Type} (db : DB) (stmt : DB → Except StoreError α × DB) :
    exec false db stmt = stmt db := by simp [exec]

@[simp] theorem exec_fail {α : Type} (db : DB) (stmt : DB → Except StoreError α × DB) :
    exec true db stmt = (.error .driver, db) := by simp [exec]

theorem Mark_ok (db : DB) (id replacedBy : Int) :
    MarkRefreshTokenRevokedAndSetReplacement false db id replacedBy =
      (.ok (), { db with refresh_tokens := db.refresh_tokens.map (markRow id replacedBy) }) :=
  rfl

theorem Mark_fail (db : DB) (id replacedBy : Int) :
    MarkRefreshTokenRevokedAndSetReplacement true db id replacedBy = (.error .driver, db) :=
  rfl

theorem RevokeAll_ok (db : DB) (userID : Int) :
    RevokeAllRefreshTokensForUser false db userID =
      (.ok (), { db with refresh_tokens := db.refresh_tokens.map (revokeRow userID) }) :=
  rfl

theorem RevokeAll_fail (db : DB) (userID : Int) :
    RevokeAllRefreshTokensForUser true db userID = (.error .driver, db) :=
  rfl

theorem refresh_reuse_path (lib : Lib) (tm : TokenManager) (env : RefreshEnv) (db : DB)
    (raw : String) (rt : RefreshToken)
    (hraw : raw ≠ "") (hget : env.getFails = false)
    (hfind : db.tokenByHash (sha256Hex lib raw) = some rt) (hrev : rt.Revoked = true) :
    MakeRefreshHandler lib tm env db ⟨"POST", some ⟨raw⟩⟩ =
      (⟨401, .error "invalid_refresh_token"⟩,
        (RevokeAllRefreshTokensForUser env.revokeAllFails db rt.UserID).2) := by
  unfold DB.tokenByHash at hfind
  simp [MakeRefreshHandler, hraw, hget, GetRefreshTokenByHash, hfind, hrev]

theorem refresh_expired_path (lib : Lib) (tm : TokenManager) (env : RefreshEnv) (db : DB)
    (raw : String) (rt : RefreshToken)
    (hraw : raw ≠ "") (hget : env.getFails = false)
    (hfind : db.tokenByHash (sha256Hex lib raw) = some rt) (hrev : rt.Revoked = false)
    (hexp : rt.ExpiresAt < env.nowCheck) :
    MakeRefreshHandler lib tm env db ⟨"POST", some ⟨raw⟩⟩ =
      (⟨401, .error "refresh_token_expired"⟩,
        (MarkRefreshTokenRevokedAndSetReplacement env.markFails db rt.ID 0).2) := by
  unfold DB.tokenByHash at hfind
  simp [MakeRefreshHandler, hraw, hget, GetRefreshTokenByHash, hfind, hrev, hexp]


theorem refresh_unknown_path (lib : Lib) (tm : TokenManager) (env : RefreshEnv) (db : DB)
    (raw : String) (hraw : raw ≠ "") (hget : env.getFails = false)
    (hfind : db.tokenByHash (sha256Hex lib raw) = none) :
    MakeRefreshHandler lib tm env db ⟨"POST", some ⟨raw⟩⟩ =
      (⟨401, .error "invalid_refresh_token"⟩, db) := by
  unfold DB.tokenByHash at hfind
  simp [MakeRefreshHandler, hraw, hget, GetRefreshTokenByHash, hfind]

theorem insertRefreshToken_fresh (now : Time) (userID : Int) (h : String) (e : Time)
    (d : Option String) (db : DB) (hfresh : ∀ r ∈ db.refresh_tokens, r.TokenHash ≠ h) :
    insertRefreshToken now userID h e d db =
      (.ok (db.tokenSeq + 1),
        { db with refresh_tokens := db.refresh_tokens ++ [newRow db now userID h e d],
                  tokenSeq := db.tokenSeq + 1 }) := by
  have : ¬ ∃ x ∈ db.refresh_tokens, x.TokenHash = h := by
    rintro ⟨x, hx, hxh⟩; exact hfresh x hx hxh
  simp [insertRefreshToken, newRow, this]

theorem insertRefreshToken_dup (now : Time) (userID : Int) (h : String) (e : Time)
    (d : Option String) (db : DB) (hdup : ∃ r ∈ db.refresh_tokens, r.TokenHash = h) :
    insertRefreshToken now userID h e d db = (.error .uniqueConstraint, db) := by
  simp [insertRefreshToken, hdup]

theorem refresh_rotate_path (lib : Lib) (tm : TokenManager) (env : RefreshEnv) (db : DB)
    (raw : String) (rt : RefreshToken) (b : Fin 32 → Byte)
    (hraw : raw ≠ "") (hget : env.getFails = false)
    (hfind : db.tokenByHash (sha256Hex lib raw) = some rt) (hrev : rt.Revoked = false)
    (hexp : ¬ rt.ExpiresAt < env.nowCheck) (hrand : env.rand = some b)
    (hcreate : env.createFails = false)
    (hfresh : ∀ r ∈ db.refresh_tokens,
      r.TokenHash ≠ sha256Hex lib (EncodeToString (randomBuffer b))) :
    MakeRefreshHandler lib tm env db ⟨"POST", some ⟨raw⟩⟩ =
      let newRaw := EncodeToString (randomBuffer b)
      let db₁ : DB :=
        { db with
          refresh_tokens := db.refresh_tokens ++
            [newRow db env.nowInsert rt.UserID (sha256Hex lib newRaw)
              (env.nowIssue + 24 * Hour) none],
          tokenSeq := db.tokenSeq + 1 }
      if env.markFails then
        (⟨500, .error "internal_error"⟩,
          (RevokeAllRefreshTokensForUser env.revokeAllFails db₁ rt.UserID).2)
      else
        let db₂ : DB :=
          { db₁ with refresh_tokens := db₁.refresh_tokens.map (markRow rt.ID (db.tokenSeq + 1)) }
        match tm.GenerateAccessToken lib env.nowExp env.nowIat rt.UserID "" 900 with
        | .error _ => (⟨500, .error "token_generation_failed"⟩, db₂)
        | .ok accessToken =>
          (⟨200, .payload
              { UserID := rt.UserID, AccessToken := accessToken, AccessExpiresIn := 900,
                RefreshToken := newRaw, RefreshExpiresIn := 86400 }⟩, db₂) := by
  unfold DB.tokenByHash at hfind
  simp only [MakeRefreshHandler, GetRefreshTokenByHash, GenerateRefreshToken,
    CreateRefreshToken, hget, hcreate, hrand, exec_ok, hfind, hrev, hexp,
    insertRefreshToken_fresh _ _ _ _ _ _ hfresh]
  simp [hraw]
  cases hm : env.markFails
  · simp [MarkRefreshTokenRevokedAndSetReplacement]
  · simp [MarkRefreshTokenRevokedAndSetReplacement]

theorem refresh_ok_inv (lib : Lib) (tm : TokenManager) (env : RefreshEnv) (db : DB)
    (r : Request RefreshRequest)
    (h : (MakeRefreshHandler lib tm env db r).1.status = 200) :
    ∃ raw rt b tok, r = ⟨"POST", some ⟨raw⟩⟩ ∧ raw ≠ "" ∧ env.getFails = false ∧
      db.tokenByHash (sha256Hex lib raw) = some rt ∧ rt.Revoked = false ∧
      ¬ rt.ExpiresAt < env.nowCheck ∧ env.rand = some b ∧ env.createFails = false ∧
      (∀ r ∈ db.refresh_tokens, r.TokenHash ≠ sha256Hex lib (EncodeToString (randomBuffer b))) ∧
      env.markFails = false ∧
      tm.GenerateAccessToken lib env.nowExp env.nowIat rt.UserID "" 900 = .ok tok := by
  obtain ⟨m, body⟩ := r
  by_cases hm : m = "POST"
  swap
  · simp [MakeRefreshHandler, hm] at h
  subst hm
  cases body with
  | none => simp [MakeRefreshHandler] at h
  | some req =>
    obtain ⟨raw⟩ := req
    by_cases hraw : raw = ""
    · simp [MakeRefreshHandler, hraw] at h
    cases hget : env.getFails
    swap
    · simp [MakeRefreshHandler, hraw, hget, GetRefreshTokenByHash] at h
    cases hfind : db.tokenByHash (sha256Hex lib raw) with
    | none =>
      unfold DB.tokenByHash at hfind
      simp [MakeRefreshHandler, hraw, hget, GetRefreshTokenByHash, hfind] at h
    | some rt =>
      cases hrev : rt.Revoked
      swap
      · rw [refresh_reuse_path lib tm env db raw rt hraw hget hfind hrev] at h
        simp at h
      by_cases hexp : rt.ExpiresAt < env.nowCheck
      · rw [refresh_expired_path lib tm env db raw rt hraw hget hfind hrev hexp] at h
        simp at h
      cases hrand : env.rand with
      | none =>
        unfold DB.tokenByHash at hfind
        simp [MakeRefreshHandler, hraw, hget, GetRefreshTokenByHash, hfind, hrev, hexp,
          hrand, GenerateRefreshToken] at h
      | some b =>
        cases hcreate : env.createFails
        swap
        · unfold DB.tokenByHash at hfind
          simp [MakeRefreshHandler, hraw, hget, GetRefreshTokenByHash, hfind, hrev, hexp,
            hrand, GenerateRefreshToken, CreateRefreshToken, hcreate] at h
        by_cases hfresh : ∀ r ∈ db.refresh_tokens,
            r.TokenHash ≠ sha256Hex lib (EncodeToString (randomBuffer b))
        swap
        · push_neg at hfresh
          unfold DB.tokenByHash at hfind
          simp [MakeRefreshHandler, hraw, hget, GetRefreshTokenByHash, hfind, hrev, hexp,
            hrand, GenerateRefreshToken, CreateRefreshToken, hcreate,
            insertRefreshToken_dup _ _ _ _ _ _ hfresh] at h
        rw [refresh_rotate_path lib tm env db raw rt b hraw hget hfind hrev hexp hrand
          hcreate hfresh] at h
        cases hmark : env.markFails
        swap
        · simp [hmark] at h
        cases htok : tm.GenerateAccessToken lib env.nowExp env.nowIat rt.UserID "" 900 with
        | error e => simp [hmark, htok] at h
        | ok tok =>
          exact ⟨raw, rt, b, tok, rfl, hraw, rfl, hfind, hrev, hexp, rfl, rfl, hfresh, rfl, htok⟩


/-! ### Lists of rows -/

theorem find?_mem_pred {α : Type} {p : α → Bool} {l : List α} {a : α}
    (h : l.find? p = some a) : a ∈ l ∧ p a = true :=
  ⟨List.mem_of_find?_eq_some h, List.find?_some h⟩

theorem tokenByHash_mem {db : DB} {h : String} {rt : RefreshToken}
    (hf : db.tokenByHash h = some rt) : rt ∈ db.refresh_tokens ∧ rt.TokenHash = h := by
  have := find?_mem_pred hf
  simpa using this

theorem tokenById_mem {db : DB} {id : Int} {rt : RefreshToken}
    (hf : db.tokenById id = some rt) : rt ∈ db.refresh_tokens ∧ rt.ID = id := by
  have := find?_mem_pred hf
  simpa using this

/-- In a list without duplicate keys, a row is determined by its key. -/
theorem eq_of_key_eq {α κ : Type} (key : α → κ) :
    ∀ {l : List α}, (l.map key).Nodup → ∀ {a b : α}, a ∈ l → b ∈ l → key a = key b → a = b
  | [], _, _, _, ha, _, _ => by simp at ha
  | x :: xs, hnd, a, b, ha, hb, hk => by
    rw [List.map_cons, List.nodup_cons] at hnd
    rcases List.mem_cons.1 ha with rfl | ha'
    · rcases List.mem_cons.1 hb with rfl | hb'
      · rfl
      · exact absurd (hk ▸ List.mem_map_of_mem key hb') hnd.1
    · rcases List.mem_cons.1 hb with rfl | hb'
      · exact absurd (hk ▸ List.mem_map_of_mem key ha') hnd.1
      · exact eq_of_key_eq key hnd.2 ha' hb' hk

/-- In a list without duplicate keys, looking a member up by its key finds it. -/
theorem find?_key_of_mem {α κ : Type} [DecidableEq κ] (key : α → κ) :
    ∀ {l : List α}, (l.map key).Nodup → ∀ {a : α}, a ∈ l →
      l.find? (fun x => decide (key x = key a)) = some a
  | [], _, _, ha => by simp at ha
  | x :: xs, hnd, a, ha => by
    rw [List.map_cons, List.nodup_cons] at hnd
    by_cases hx : key x = key a
    · have : x = a := by
        rcases List.mem_cons.1 ha with rfl | ha'
        · rfl
        · exact absurd (hx ▸ List.mem_map_of_mem key ha') hnd.1
      simp [List.find?_cons, this]
    · have hne : a ≠ x := fun e => hx (e ▸ rfl)
      have ha' : a ∈ xs := by
        rcases List.mem_cons.1 ha with rfl | ha'
        · exact absurd rfl hne
        · exact ha'
      simp [List.find?_cons, hx, find?_key_of_mem key hnd.2 ha']

theorem DB.WF.tokenById_of_mem {db : DB} (hwf : db.WF) {rt : RefreshToken}
    (h : rt ∈ db.refresh_tokens) : db.tokenById rt.ID = some rt :=
  find?_key_of_mem (fun r : RefreshToken => r.ID) hwf.ids_nodup h

theorem DB.WF.tokenByHash_of_mem {db : DB} (hwf : db.WF) {rt : RefreshToken}
    (h : rt ∈ db.refresh_tokens) : db.tokenByHash rt.TokenHash = some rt :=
  find?_key_of_mem (fun r : RefreshToken => r.TokenHash) hwf.hashes_nodup h

/-- With distinct ids, the `UPDATE ... WHERE id = ?` touches the one row it names. -/
theorem DB.WF.markRow_eq {db : DB} (hwf : db.WF) {rt : RefreshToken}
    (hrt : rt ∈ db.refresh_tokens) (rb : Int) :
    ∀ r ∈ db.refresh_tokens,
      markRow rt.ID rb r = if r = rt then { r with Revoked := true, ReplacedBy := some rb } else r := by
  intro r hr
  unfold markRow
  by_cases hid : r.ID = rt.ID
  · have : r = rt := eq_of_key_eq (fun r : RefreshToken => r.ID) hwf.ids_nodup hr hrt hid
    simp [this]
  · have : r ≠ rt := fun e => hid (e ▸ rfl)
    simp [hid, this]

/-! ### Evolution of the database -/

/-! ### Relations every store statement establishes -/

theorem exec_inv {P : DB → DB → Prop} (hP : StoreInvariant P) {α : Type} (fails : Bool)
    (db : DB) (stmt : DB → Except StoreError α × DB) (h : P db (stmt db).2) :
    P db (exec fails db stmt).2 := by
  cases fails
  · simpa using h
  · simpa using hP.refl db

theorem CreateRefreshToken_inv {P : DB → DB → Prop} (hP : StoreInvariant P) (fails : Bool)
    (now : Time) (db : DB) (u : Int) (h : String) (e : Time) (d : Option String) :
    P db (CreateRefreshToken fails now db u h e d).2 :=
  exec_inv hP _ _ _ (hP.insert now u h e d db)

theorem StoreRefreshToken_inv {P : DB → DB → Prop} (hP : StoreInvariant P) (fails : Bool)
    (now : Time) (db : DB) (u : Int) (h : String) (e : Time) :
    P db (StoreRefreshToken fails now db u h e).2 := by
  apply exec_inv hP
  have := hP.insert now u h e none db
  split <;> rename_i heq <;> rw [heq] at this <;> exact this

theorem Mark_inv {P : DB → DB → Prop} (hP : StoreInvariant P) (fails : Bool) (db : DB)
    (id rb : Int) : P db (MarkRefreshTokenRevokedAndSetReplacement fails db id rb).2 :=
  exec_inv hP _ _ _ (hP.mark db id rb)

theorem RevokeAll_inv {P : DB → DB → Prop} (hP : StoreInvariant P) (fails : Bool) (db : DB)
    (u : Int) : P db (RevokeAllRefreshTokensForUser fails db u).2 :=
  exec_inv hP _ _ _ (hP.revokeAll db u)

theorem Get_snd (fails : Bool) (db : DB) (h : String) :
    (GetRefreshTokenByHash fails db h).2 = db := by
  cases fails <;> simp [GetRefreshTokenByHash]

theorem GetUser_snd (fails : Bool) (db : DB) (n : String) :
    (GetUserByUsername fails db n).2 = db := by
  cases fails <;> simp [GetUserByUsername]

theorem CreateUser_inv {P : DB → DB → Prop} (hP : StoreInvariant P) (fails : Bool)
    (now : Time) (db : DB) (n p : String) : P db (CreateUser fails now db n p).2 := by
  apply exec_inv hP
  split
  · exact hP.refl db
  · exact hP.users db _ _

theorem MakeRefreshHandler_inv {P : DB → DB → Prop} (hP : StoreInvariant P)
    (lib : Lib) (tm : TokenManager) (env : RefreshEnv)
    (db : DB) (r : Request RefreshRequest) :
    P db (MakeRefreshHandler lib tm env db r).2 := by
  obtain ⟨m, body⟩ := r
  by_cases hm : m = "POST"
  swap
  · simpa [MakeRefreshHandler, hm] using hP.refl db
  subst hm
  cases body with
  | none => simpa [MakeRefreshHandler] using hP.refl db
  | some req =>
    by_cases hraw : req.RefreshToken = ""
    · simpa [MakeRefreshHandler, hraw] using hP.refl db
    have hg := Get_snd env.getFails db (sha256Hex lib req.RefreshToken)
    rcases hget : GetRefreshTokenByHash env.getFails db (sha256Hex lib req.RefreshToken)
      with ⟨res, db₁⟩
    rw [hget] at hg
    simp only at hg
    subst hg
    rcases res with e | _ | rt
    · simpa [MakeRefreshHandler, hraw, hget] using hP.refl db₁
    · simpa [MakeRefreshHandler, hraw, hget] using hP.refl db₁
    cases hrev : rt.Revoked
    swap
    · simpa [MakeRefreshHandler, hraw, hget, hrev] using RevokeAll_inv hP _ db₁ rt.UserID
    by_cases hexp : rt.ExpiresAt < env.nowCheck
    · simpa [MakeRefreshHandler, hraw, hget, hrev, hexp] using Mark_inv hP _ db₁ rt.ID 0
    rcases hgen : GenerateRefreshToken lib env.rand with e | ⟨newRaw, newHash⟩
    · simpa [MakeRefreshHandler, hraw, hget, hrev, hexp, hgen] using hP.refl db₁
    have hc := CreateRefreshToken_inv hP env.createFails env.nowInsert db₁ rt.UserID newHash
      (env.nowIssue + 24 * Hour) none
    rcases hcreate : CreateRefreshToken env.createFails env.nowInsert db₁ rt.UserID newHash
      (env.nowIssue + 24 * Hour) none with ⟨res, db₂⟩
    rw [hcreate] at hc
    rcases res with e | newID
    · simpa [MakeRefreshHandler, hraw, hget, hrev, hexp, hgen, hcreate] using hc
    have hk := Mark_inv hP env.markFails db₂ rt.ID newID
    rcases hmark : MarkRefreshTokenRevokedAndSetReplacement env.markFails db₂ rt.ID newID
      with ⟨res, db₃⟩
    rw [hmark] at hk
    rcases res with e | u
    · have := hP.trans (hP.trans hc hk) (RevokeAll_inv hP env.revokeAllFails db₃ rt.UserID)
      simpa [MakeRefreshHandler, hraw, hget, hrev, hexp, hgen, hcreate, hmark] using this
    rcases htok : tm.GenerateAccessToken lib env.nowExp env.nowIat rt.UserID "" 900 with e | tok
    · simpa [MakeRefreshHandler, hraw, hget, hrev, hexp, hgen, hcreate, hmark, htok]
        using hP.trans hc hk
    · simpa [MakeRefreshHandler, hraw, hget, hrev, hexp, hgen, hcreate, hmark, htok]
        using hP.trans hc hk

theorem MakeLoginHandler_inv {P : DB → DB → Prop} (hP : StoreInvariant P)
    (lib : Lib) (tm : TokenManager) (env : LoginEnv)
    (db : DB) (r : Request LoginRequest) :
    P db (MakeLoginHandler lib tm env db r).2 := by
  obtain ⟨m, body⟩ := r
  by_cases hm : m = "POST"
  swap
  · simpa [MakeLoginHandler, hm] using hP.refl db
  subst hm
  cases body with
  | none => simpa [MakeLoginHandler] using hP.refl db
  | some req =>
    by_cases hreq : trim req.Username = "" ∨ trim req.Password = ""
    · simpa [MakeLoginHandler, hreq] using hP.refl db
    have hg := GetUser_snd env.getUserFails db (trim req.Username)
    rcases hget : GetUserByUsername env.getUserFails db (trim req.Username) with ⟨res, db₁⟩
    rw [hget] at hg
    simp only at hg
    subst hg
    rcases res with e | _ | user
    · simpa [MakeLoginHandler, hreq, hget] using hP.refl db₁
    · simpa [MakeLoginHandler, hreq, hget] using hP.refl db₁
    cases hpw : lib.CompareHashAndPassword user.Password (trim req.Password)
    · simpa [MakeLoginHandler, hreq, hget, hpw] using hP.refl db₁
    rcases htok : tm.GenerateAccessToken lib env.nowExp env.nowIat user.ID user.Username 900
      with e | tok
    · simpa [MakeLoginHandler, hreq, hget, hpw, htok] using hP.refl db₁
    rcases hgen : GenerateRefreshToken lib env.rand with e | ⟨raw, hash⟩
    · simpa [MakeLoginHandler, hreq, hget, hpw, htok, hgen] using hP.refl db₁
    have hs := StoreRefreshToken_inv hP env.storeFails env.nowInsert db₁ user.ID hash
      (env.nowIssue + 24 * Hour)
    rcases hstore : StoreRefreshToken env.storeFails env.nowInsert db₁ user.ID hash
      (env.nowIssue + 24 * Hour) with ⟨res, db₂⟩
    rw [hstore] at hs
    rcases res with e | u
    · simpa [MakeLoginHandler, hreq, hget, hpw, htok, hgen, hstore] using hs
    · simpa [MakeLoginHandler, hreq, hget, hpw, htok, hgen, hstore] using hs

theorem MakeRegisterHandler_inv {P : DB → DB → Prop} (hP : StoreInvariant P)
    (lib : Lib) (env : RegisterEnv)
    (db : DB) (r : Request LoginRequest) :
    P db (MakeRegisterHandler lib env db r).2 := by
  obtain ⟨m, body⟩ := r
  by_cases hm : m = "POST"
  swap
  · simpa [MakeRegisterHandler, hm] using hP.refl db
  subst hm
  cases body with
  | none => simpa [MakeRegisterHandler] using hP.refl db
  | some req =>
    by_cases hreq : trim req.Username = "" ∨ trim req.Password = ""
    · simpa [MakeRegisterHandler, hreq] using hP.refl db
    have hg := GetUser_snd env.getUserFails db (trim req.Username)
    rcases hget : GetUserByUsername env.getUserFails db (trim req.Username) with ⟨res, db₁⟩
    rw [hget] at hg
    simp only at hg
    subst hg
    rcases res with e | _ | user
    · simpa [MakeRegisterHandler, hreq, hget] using hP.refl db₁
    swap
    · simpa [MakeRegisterHandler, hreq, hget] using hP.refl db₁
    rcases hpw : lib.GenerateFromPassword (trim req.Password) env.salt with e | hash
    · simpa [MakeRegisterHandler, hreq, hget, hpw] using hP.refl db₁
    have hs := CreateUser_inv hP env.createFails env.nowInsert db₁ (trim req.Username) hash
    rcases hcreate : CreateUser env.createFails env.nowInsert db₁ (trim req.Username) hash
      with ⟨res, db₂⟩
    rw [hcreate] at hs
    rcases res with e | id
    · cases e <;> simpa [MakeRegisterHandler, hreq, hget, hpw, hcreate] using hs
    · simpa [MakeRegisterHandler, hreq, hget, hpw, hcreate] using hs

theorem Op.apply_inv {P : DB → DB → Prop} (hP : StoreInvariant P)
    (lib : Lib) (tm : TokenManager) (db : DB) (op : Op) :
    P db (op.apply lib tm db) := by
  cases op with
  | register env r => exact MakeRegisterHandler_inv hP lib env db r
  | login env r => exact MakeLoginHandler_inv hP lib tm env db r
  | refresh env r => exact MakeRefreshHandler_inv hP lib tm env db r

theorem serve_inv {P : DB → DB → Prop} (hP : StoreInvariant P)
    (lib : Lib) (tm : TokenManager) (ops : List Op) :
    ∀ db : DB, P db (serve lib tm db ops) := by
  induction ops with
  | nil => intro db; exact hP.refl db
  | cons op ops ih =>
    intro db
    exact hP.trans (Op.apply_inv hP lib tm db op) (ih _)

/-! ### Lookups after an update -/

theorem find?_map_hash (f : RefreshToken → RefreshToken) (hf : ∀ r, (f r).TokenHash = r.TokenHash)
    (h : String) (l : List RefreshToken) :
    (l.map f).find? (fun r => decide (r.TokenHash = h)) =
      (l.find? (fun r => decide (r.TokenHash = h))).map f := by
  rw [List.find?_map]
  congr 2
  funext r
  simp [hf r]

theorem find?_map_id (f : RefreshToken → RefreshToken) (hf : ∀ r, (f r).ID = r.ID)
    (id : Int) (l : List RefreshToken) :
    (l.map f).find? (fun r => decide (r.ID = id)) =
      (l.find? (fun r => decide (r.ID = id))).map f := by
  rw [List.find?_map]
  congr 2
  funext r
  simp [hf r]

theorem markRow_id (id rb : Int) (r : RefreshToken) : (markRow id rb r).ID = r.ID := by
  unfold markRow; split <;> rfl

theorem markRow_hash (id rb : Int) (r : RefreshToken) :
    (markRow id rb r).TokenHash = r.TokenHash := by
  unfold markRow; split <;> rfl

theorem revokeRow_id (u : Int) (r : RefreshToken) : (revokeRow u r).ID = r.ID := by
  unfold revokeRow; split <;> rfl

theorem revokeRow_hash (u : Int) (r : RefreshToken) :
    (revokeRow u r).TokenHash = r.TokenHash := by
  unfold revokeRow; split <;> rfl

theorem revokeRow_user (u : Int) (r : RefreshToken) : (revokeRow u r).UserID = r.UserID := by
  unfold revokeRow; split <;> rfl


/-! ### Evolution of the database -/

theorem Evolves.refl (db : DB) : Evolves db db :=
  ⟨id, [], by simp, fun _ => ⟨rfl, rfl, rfl, id⟩⟩

theorem Evolves.trans {a b c : DB} (h₁ : Evolves a b) (h₂ : Evolves b c) : Evolves a c := by
  obtain ⟨f, e₁, hf, hfp⟩ := h₁
  obtain ⟨g, e₂, hg, hgp⟩ := h₂
  refine ⟨g ∘ f, e₁.map g ++ e₂, ?_, ?_⟩
  · rw [hg, hf]; simp [List.map_append, List.append_assoc]
  · intro r
    obtain ⟨h1, h2, h3, h4⟩ := hfp r
    obtain ⟨k1, k2, k3, k4⟩ := hgp (f r)
    exact ⟨by simp [k1, h1], by simp [k2, h2], by simp [k3, h3], fun hr => k4 (h4 hr)⟩

/-- Every store statement keeps ids, owners and hashes of existing rows, keeps revoked
rows revoked, and only appends rows. -/
theorem Evolves.storeInvariant : StoreInvariant Evolves where
  refl := Evolves.refl
  trans := Evolves.trans
  insert := by
    intro now u h e d db
    unfold insertRefreshToken
    split
    · exact Evolves.refl db
    · exact ⟨id, [newRow db now u h e d], by simp, fun _ => ⟨rfl, rfl, rfl, id⟩⟩
  mark := by
    intro db id rb
    refine ⟨markRow id rb, [], by simp, fun r => ?_⟩
    unfold markRow
    split <;> simp
  revokeAll := by
    intro db u
    refine ⟨revokeRow u, [], by simp, fun r => ?_⟩
    unfold revokeRow
    split <;> simp
  users := by
    intro db us seq
    exact ⟨id, [], by simp, fun _ => ⟨rfl, rfl, rfl, id⟩⟩

theorem MakeRefreshHandler_evolves (lib : Lib) (tm : TokenManager) (env : RefreshEnv)
    (db : DB) (r : Request RefreshRequest) :
    Evolves db (MakeRefreshHandler lib tm env db r).2 :=
  MakeRefreshHandler_inv Evolves.storeInvariant lib tm env db r

theorem MakeLoginHandler_evolves (lib : Lib) (tm : TokenManager) (env : LoginEnv)
    (db : DB) (r : Request LoginRequest) :
    Evolves db (MakeLoginHandler lib tm env db r).2 :=
  MakeLoginHandler_inv Evolves.storeInvariant lib tm env db r

theorem serve_evolves (lib : Lib) (tm : TokenManager) (ops : List Op) (db : DB) :
    Evolves db (serve lib tm db ops) :=
  serve_inv Evolves.storeInvariant lib tm ops db

/-! ### The table constraints are kept -/

theorem map_key_of_preserved {κ : Type} (key : RefreshToken → κ)
    (f : RefreshToken → RefreshToken) (hf : ∀ r, key (f r) = key r) (l : List RefreshToken) :
    (l.map f).map key = l.map key := by
  rw [List.map_map]
  apply List.map_congr_left
  intro r _
  exact hf r

theorem WF_of_map (db : DB) (f : RefreshToken → RefreshToken)
    (hid : ∀ r, (f r).ID = r.ID) (hh : ∀ r, (f r).TokenHash = r.TokenHash) (hwf : db.WF) :
    DB.WF { db with refresh_tokens := db.refresh_tokens.map f } where
  ids_nodup := by
    show ((db.refresh_tokens.map f).map fun r => r.ID).Nodup
    rw [map_key_of_preserved (fun r => r.ID) f hid]
    exact hwf.ids_nodup
  hashes_nodup := by
    show ((db.refresh_tokens.map f).map fun r => r.TokenHash).Nodup
    rw [map_key_of_preserved (fun r => r.TokenHash) f hh]
    exact hwf.hashes_nodup
  ids_pos := by
    intro r hr
    obtain ⟨r₀, hr₀, rfl⟩ := List.mem_map.1 hr
    rw [hid]
    exact hwf.ids_pos r₀ hr₀
  ids_le := by
    intro r hr
    obtain ⟨r₀, hr₀, rfl⟩ := List.mem_map.1 hr
    rw [hid]
    exact hwf.ids_le r₀ hr₀
  seq_nonneg := hwf.seq_nonneg

/-- Every store statement keeps the constraints of `refresh_tokens`. -/
theorem WF_storeInvariant : StoreInvariant (fun db db' => db.WF → db'.WF) where
  refl := fun _ h => h
  trans := fun h₁ h₂ h => h₂ (h₁ h)
  insert := by
    intro now u h e d db hwf
    by_cases hdup : ∃ r ∈ db.refresh_tokens, r.TokenHash = h
    · rw [insertRefreshToken_dup _ _ _ _ _ _ hdup]
      exact hwf
    · have hfresh : ∀ r ∈ db.refresh_tokens, r.TokenHash ≠ h := by
        intro r hr heq
        exact hdup ⟨r, hr, heq⟩
      rw [insertRefreshToken_fresh _ _ _ _ _ _ hfresh]
      have hseq := hwf.seq_nonneg
      refine ⟨?_, ?_, ?_, ?_, ?_⟩
      · show ((db.refresh_tokens ++ [newRow db now u h e d]).map fun r => r.ID).Nodup
        rw [List.map_append, List.nodup_append]
        refine ⟨hwf.ids_nodup, by simp, ?_⟩
        intro x hx hx'
        obtain ⟨r, hr, rfl⟩ := List.mem_map.1 hx
        have := hwf.ids_le r hr
        simp only [List.map_cons, List.map_nil, List.mem_singleton, newRow] at hx'
        omega
      · show ((db.refresh_tokens ++ [newRow db now u h e d]).map fun r => r.TokenHash).Nodup
        rw [List.map_append, List.nodup_append]
        refine ⟨hwf.hashes_nodup, by simp, ?_⟩
        intro x hx hx'
        obtain ⟨r, hr, rfl⟩ := List.mem_map.1 hx
        simp only [List.map_cons, List.map_nil, List.mem_singleton, newRow] at hx'
        exact hfresh r hr hx'
      · intro r hr
        simp only [List.mem_append, List.mem_singleton] at hr
        rcases hr with hr | rfl
        · exact hwf.ids_pos r hr
        · simp only [newRow]
          omega
      · intro r hr
        simp only [List.mem_append, List.mem_singleton] at hr
        rcases hr with hr | rfl
        · have := hwf.ids_le r hr
          show r.ID ≤ db.tokenSeq + 1
          omega
        · exact le_refl _
      · show 0 ≤ db.tokenSeq + 1
        omega
  mark := fun db id rb hwf => WF_of_map db _ (markRow_id id rb) (markRow_hash id rb) hwf
  revokeAll := fun db u hwf => WF_of_map db _ (revokeRow_id u) (revokeRow_hash u) hwf
  users := fun _ _ _ hwf =>
    ⟨hwf.ids_nodup, hwf.hashes_nodup, hwf.ids_pos, hwf.ids_le, hwf.seq_nonneg⟩

/-- The table constraints hold after any sequence of requests served from a database in
which they hold. -/
theorem serve_WF (lib : Lib) (tm : TokenManager) (ops : List Op) (db : DB) (hwf : db.WF) :
    (serve lib tm db ops).WF :=
  serve_inv WF_storeInvariant lib tm ops db hwf

/-- The table constraints hold in the database `EnsureRefreshTokensTable` creates. -/
theorem emptyDB_WF : emptyDB.WF :=
  ⟨by decide, by decide, by decide, by decide, by decide⟩

/-! ### Lookups along an evolution -/

/-- A row found before a statement is found, updated, after it. -/
theorem Evolves.tokenByHash {db db' : DB} (hev : Evolves db db') {h : String}
    {r : RefreshToken} (hf : db.tokenByHash h = some r) :
    ∃ r', db'.tokenByHash h = some r' ∧ r'.ID = r.ID ∧ r'.UserID = r.UserID ∧
      (r.Revoked = true → r'.Revoked = true) := by
  obtain ⟨f, extra, hrows, hfp⟩ := hev
  refine ⟨f r, ?_, (hfp r).1, (hfp r).2.1, (hfp r).2.2.2⟩
  unfold DB.tokenByHash at hf ⊢
  rw [hrows, List.find?_append, find?_map_hash f (fun r => (hfp r).2.2.1), hf]
  rfl

/-! ### The login handler -/

/-- A run of the login handler that answers 200: what the request and the environment
were, and the response and database it produces. -/
theorem login_ok_inv (lib : Lib) (tm : TokenManager) (env : LoginEnv) (db : DB)
    (r : Request LoginRequest)
    (h : (MakeLoginHandler lib tm env db r).1.status = 200) :
    ∃ (req : LoginRequest) (user : User) (access : String) (b : Fin 32 → Byte),
      r = ⟨"POST", some req⟩ ∧ env.getUserFails = false ∧
      db.users.find? (fun u => decide (u.Username = req.Username)) = some user ∧
      lib.CompareHashAndPassword user.Password req.Password = true ∧
      tm.GenerateAccessToken lib env.nowExp env.nowIat user.ID user.Username 900 = .ok access ∧
      env.rand = some b ∧ env.storeFails = false ∧
      (∀ r ∈ db.refresh_tokens, r.TokenHash ≠ sha256Hex lib (EncodeToString (randomBuffer b))) ∧
      MakeLoginHandler lib tm env db r =
        (⟨200, .payload ⟨user.ID, access, 900, EncodeToString (randomBuffer b), 86400⟩⟩,
          { db with
            refresh_tokens := db.refresh_tokens ++
              [newRow db env.nowInsert user.ID
                (sha256Hex lib (EncodeToString (randomBuffer b)))
                (env.nowIssue + 24 * Hour) none],
            tokenSeq := db.tokenSeq + 1 }) := by
  obtain ⟨m, body⟩ := r
  by_cases hm : m = "POST"
  swap
  · simp [MakeLoginHandler, hm] at h
  subst hm
  cases body with
  | none => simp [MakeLoginHandler] at h
  | some req =>
    by_cases hreq : req.Username = "" ∨ req.Password = ""
    · simp [MakeLoginHandler, trim, hreq] at h
    cases hget : env.getUserFails
    swap
    · simp [MakeLoginHandler, trim, hreq, hget, GetUserByUsername] at h
    cases hfind : db.users.find? (fun u => decide (u.Username = req.Username)) with
    | none => simp [MakeLoginHandler, trim, hreq, hget, GetUserByUsername, hfind] at h
    | some user =>
      cases hpw : lib.CompareHashAndPassword user.Password req.Password
      · simp [MakeLoginHandler, trim, hreq, hget, GetUserByUsername, hfind, hpw] at h
      cases htok : tm.GenerateAccessToken lib env.nowExp env.nowIat user.ID user.Username 900 with
      | error e =>
        simp [MakeLoginHandler, trim, hreq, hget, GetUserByUsername, hfind, hpw, htok] at h
      | ok access =>
        cases hrand : env.rand with
        | none =>
          simp [MakeLoginHandler, trim, hreq, hget, GetUserByUsername, hfind, hpw, htok,
            hrand, GenerateRefreshToken] at h
        | some b =>
          cases hstore : env.storeFails
          swap
          · simp [MakeLoginHandler, trim, hreq, hget, GetUserByUsername, hfind, hpw, htok,
              hrand, GenerateRefreshToken, StoreRefreshToken, hstore] at h
          by_cases hfresh : ∀ r ∈ db.refresh_tokens,
              r.TokenHash ≠ sha256Hex lib (EncodeToString (randomBuffer b))
          swap
          · push_neg at hfresh
            simp [MakeLoginHandler, trim, hreq, hget, GetUserByUsername, hfind, hpw, htok,
              hrand, GenerateRefreshToken, StoreRefreshToken, hstore,
              insertRefreshToken_dup _ _ _ _ _ _ hfresh] at h
          refine ⟨req, user, access, b, rfl, rfl, hfind, hpw, htok, rfl, rfl, hfresh, ?_⟩
          simp [MakeLoginHandler, trim, hreq, hget, GetUserByUsername, hfind, hpw, htok,
            hrand, GenerateRefreshToken, StoreRefreshToken, hstore,
            insertRefreshToken_fresh _ _ _ _ _ _ hfresh]

/-! ### Raw tokens are not empty -/

theorem EncodeToString_randomBuffer_ne_empty (b : Fin 32 → Byte) :
    EncodeToString (randomBuffer b) ≠ "" := by
  intro h
  have hd : (EncodeToString (randomBuffer b)).data = [] := by rw [h]
  simp [EncodeToString, randomBuffer, List.ofFn_succ, hexByte] at hd

/-! ### Lookups along the lifecycle -/

/-- After a login that answers 200 with refresh token `raw` for user `u`, the digest of
`raw` is the hash of a row owned by `u`, and `raw` is not empty. -/
theorem login_ok_lookup (lib : Lib) (tm : TokenManager) (env : LoginEnv) (db db' : DB)
    (r : Request LoginRequest) (u : Int) (access raw : String)
    (h : MakeLoginHandler lib tm env db r =
      (⟨200, .payload ⟨u, access, 900, raw, 86400⟩⟩, db')) :
    raw ≠ "" ∧ ∃ row, db'.tokenByHash (sha256Hex lib raw) = some row ∧ row.UserID = u := by
  have hok : (MakeLoginHandler lib tm env db r).1.status = 200 := by rw [h]
  obtain ⟨req, user, access', b, -, -, -, -, -, -, -, hfresh, heq⟩ :=
    login_ok_inv lib tm env db r hok
  rw [heq] at h
  simp only [Prod.mk.injEq, Response.mk.injEq, Body.payload.injEq, TokenResponse.mk.injEq,
    true_and, and_true] at h
  obtain ⟨⟨hu, -, hraw⟩, hdb⟩ := h
  subst hu hraw hdb
  refine ⟨EncodeToString_randomBuffer_ne_empty b,
    newRow db env.nowInsert user.ID (sha256Hex lib (EncodeToString (randomBuffer b)))
      (env.nowIssue + 24 * Hour) none, ?_, rfl⟩
  · show List.find? _ (_ ++ _) = _
    have hnone : List.find? (fun r => decide (r.TokenHash =
        sha256Hex lib (EncodeToString (randomBuffer b)))) db.refresh_tokens = none := by
      rw [List.find?_eq_none]
      intro r hr
      simpa using hfresh r hr
    rw [List.find?_append, hnone]
    simp [newRow]

/-- After a refresh that answers 200 on raw token `raw` and returns `newRaw`: the
presented row was live and is now revoked; the digest of `newRaw` is the hash of a row
with the same owner; neither raw token is empty. -/
theorem refresh_ok_lookup (lib : Lib) (tm : TokenManager) (env : RefreshEnv) (db db' : DB)
    (raw : String) (resp : Response TokenResponse)
    (h : MakeRefreshHandler lib tm env db ⟨"POST", some ⟨raw⟩⟩ = (resp, db'))
    (hok : resp.status = 200) :
    ∃ (rt : RefreshToken) (access newRaw : String),
      raw ≠ "" ∧ newRaw ≠ "" ∧
      resp = ⟨200, .payload ⟨rt.UserID, access, 900, newRaw, 86400⟩⟩ ∧
      db.tokenByHash (sha256Hex lib raw) = some rt ∧
      (∃ old, db'.tokenByHash (sha256Hex lib raw) = some old ∧ old.Revoked = true ∧
        old.UserID = rt.UserID) ∧
      (∃ new, db'.tokenByHash (sha256Hex lib newRaw) = some new ∧ new.UserID = rt.UserID) := by
  have hok' : (MakeRefreshHandler lib tm env db ⟨"POST", some ⟨raw⟩⟩).1.status = 200 := by
    rw [h]; exact hok
  obtain ⟨raw', rt, b, tok, hreq, hraw, hget, hfind, hrev, hexp, hrand, hcreate, hfresh,
    hmark, htok⟩ := refresh_ok_inv lib tm env db _ hok'
  have hraw' : raw' = raw := by
    have := congrArg Request.Body hreq
    simp at this
    exact this.symm
  subst hraw'
  rw [refresh_rotate_path lib tm env db raw' rt b hraw hget hfind hrev hexp hrand hcreate hfresh]
    at h
  simp only [hmark, htok, Bool.false_eq_true, if_false, Prod.mk.injEq] at h
  obtain ⟨hresp, hdb⟩ := h
  subst hresp hdb
  have hnone : List.find? (fun r => decide (r.TokenHash =
      sha256Hex lib (EncodeToString (randomBuffer b)))) db.refresh_tokens = none := by
    rw [List.find?_eq_none]
    intro r hr
    simpa using hfresh r hr
  refine ⟨rt, tok, EncodeToString (randomBuffer b), hraw,
    EncodeToString_randomBuffer_ne_empty b, rfl, hfind, ⟨markRow rt.ID (db.tokenSeq + 1) rt, ?_,
      by simp [markRow], by simp [markRow]⟩, ⟨markRow rt.ID (db.tokenSeq + 1) (newRow db
        env.nowInsert rt.UserID (sha256Hex lib (EncodeToString (randomBuffer b)))
        (env.nowIssue + 24 * Hour) none), ?_, ?_⟩⟩
  · show List.find? _ (List.map _ _) = _
    unfold DB.tokenByHash at hfind
    rw [find?_map_hash _ (markRow_hash _ _), List.find?_append, hfind]
    rfl
  · show List.find? _ (List.map _ _) = _
    rw [find?_map_hash _ (markRow_hash _ _), List.find?_append, hnone]
    simp [newRow]
  · unfold markRow
    split <;> rfl

/-- Presenting a raw token whose row is revoked never answers 200; it answers
401 `invalid_refresh_token` when the token is not empty and the lookup does not fail. -/
theorem refresh_of_revoked (lib : Lib) (tm : TokenManager) (env : RefreshEnv) (db : DB)
    (raw : String) (rt : RefreshToken)
    (hfind : db.tokenByHash (sha256Hex lib raw) = some rt) (hrev : rt.Revoked = true) :
    (MakeRefreshHandler lib tm env db ⟨"POST", some ⟨raw⟩⟩).1.status ≠ 200 ∧
    (raw ≠ "" → env.getFails = false →
      (MakeRefreshHandler lib tm env db ⟨"POST", some ⟨raw⟩⟩).1 =
        ⟨401, .error "invalid_refresh_token"⟩) := by
  constructor
  · intro hok
    obtain ⟨raw', rt', -, -, hreq, -, -, hfind', hrev', -⟩ := refresh_ok_inv lib tm env db _ hok
    have hraw' : raw' = raw := by
      have := congrArg Request.Body hreq
      simp at this
      exact this.symm
    subst hraw'
    rw [hfind] at hfind'
    cases hfind'
    rw [hrev] at hrev'
    exact Bool.noConfusion hrev'
  · intro hraw hget
    rw [refresh_reuse_path lib tm env db raw rt hraw hget hfind hrev]

/-- After `RevokeAllRefreshTokensForUser` has run for user `u`, a row owned by `u` is
found revoked. -/
theorem revokeAll_lookup (db : DB) (u : Int) (h : String) (r : RefreshToken)
    (hf : db.tokenByHash h = some r) (hu : r.UserID = u) :
    ∃ r', (RevokeAllRefreshTokensForUser false db u).2.tokenByHash h = some r' ∧
      r'.Revoked = true ∧ r'.UserID = u := by
  refine ⟨revokeRow u r, ?_, by simp [revokeRow, hu], by simp [revokeRow, hu]⟩
  unfold DB.tokenByHash at hf
  show List.find? _ (List.map _ _) = _
  rw [find?_map_hash _ (revokeRow_hash _), hf]
  rfl

/-! ### Runs cut at the store calls -/

/-- Stepping a run that has taken all its steps changes nothing. -/
theorem Thread.run_done (lib : Lib) (tm : TokenManager) (env : RefreshEnv)
    (r : Request RefreshRequest) (resp : Response TokenResponse) (db : DB) :
    ∀ n, Thread.run lib tm env r n (.done resp, db) = (.done resp, db)
  | 0 => rfl
  | n + 1 => by
    show Thread.run lib tm env r n (Thread.step lib tm env r (.done resp) db) = _
    exact Thread.run_done lib tm env r resp db n

/-- A run cut at its store calls and stepped four times with nothing in between is a
run of `MakeRefreshHandler`. -/
theorem Thread.run_eq_handler (lib : Lib) (tm : TokenManager) (env : RefreshEnv)
    (r : Request RefreshRequest) (db : DB) :
    Thread.run lib tm env r 4 (.start, db) =
      (.done (MakeRefreshHandler lib tm env db r).1, (MakeRefreshHandler lib tm env db r).2) := by
  obtain ⟨m, body⟩ := r
  by_cases hm : m = "POST"
  swap
  · simp [Thread.run, Thread.step, MakeRefreshHandler, hm]
  subst hm
  cases body with
  | none => simp [Thread.run, Thread.step, MakeRefreshHandler]
  | some req =>
    by_cases hraw : req.RefreshToken = ""
    · simp [Thread.run, Thread.step, MakeRefreshHandler, hraw]
    have hg := Get_snd env.getFails db (sha256Hex lib req.RefreshToken)
    rcases hget : GetRefreshTokenByHash env.getFails db (sha256Hex lib req.RefreshToken)
      with ⟨res, db₁⟩
    rw [hget] at hg
    simp only at hg
    subst hg
    rcases res with e | _ | rt
    · simp [Thread.run, Thread.step, MakeRefreshHandler, hraw, hget]
    · simp [Thread.run, Thread.step, MakeRefreshHandler, hraw, hget]
    cases hrev : rt.Revoked
    swap
    · simp [Thread.run, Thread.step, MakeRefreshHandler, hraw, hget, hrev]
    by_cases hexp : rt.ExpiresAt < env.nowCheck
    · simp [Thread.run, Thread.step, MakeRefreshHandler, hraw, hget, hrev, hexp]
    rcases hgen : GenerateRefreshToken lib env.rand with e | ⟨newRaw, newHash⟩
    · simp [Thread.run, Thread.step, MakeRefreshHandler, hraw, hget, hrev, hexp, hgen]
    rcases hcreate : CreateRefreshToken env.createFails env.nowInsert db₁ rt.UserID newHash
      (env.nowIssue + 24 * Hour) none with ⟨res, db₂⟩
    rcases res with e | newID
    · simp [Thread.run, Thread.step, MakeRefreshHandler, hraw, hget, hrev, hexp, hgen, hcreate]
    rcases hmark : MarkRefreshTokenRevokedAndSetReplacement env.markFails db₂ rt.ID newID
      with ⟨res, db₃⟩
    rcases res with e | u
    · simp [Thread.run, Thread.step, MakeRefreshHandler, hraw, hget, hrev, hexp, hgen, hcreate,
        hmark]
    rcases htok : tm.GenerateAccessToken lib env.nowExp env.nowIat rt.UserID "" 900 with e | tok
    · simp [Thread.run, Thread.step, MakeRefreshHandler, hraw, hget, hrev, hexp, hgen, hcreate,
        hmark, htok]
    · simp [Thread.run, Thread.step, MakeRefreshHandler, hraw, hget, hrev, hexp, hgen, hcreate,
        hmark, htok]

theorem Thread.run_add (lib : Lib) (tm : TokenManager) (env : RefreshEnv)
    (r : Request RefreshRequest) :
    ∀ (m n : Nat) (c : Thread × DB),
      Thread.run lib tm env r (m + n) c = Thread.run lib tm env r n (Thread.run lib tm env r m c)
  | 0, n, c => by simp [Thread.run]
  | m + 1, n, c => by
    have : m + 1 + n = (m + n) + 1 := by omega
    rw [this]
    show Thread.run lib tm env r (m + n) _ = Thread.run lib tm env r n (Thread.run lib tm env r m _)
    exact Thread.run_add lib tm env r m n _

/-- The lookup step of a run that finds its row live and unexpired. -/
theorem step_start_live (lib : Lib) (tm : TokenManager) (env : RefreshEnv) (db : DB)
    (raw : String) (rt : RefreshToken) (b : Fin 32 → Byte)
    (hraw : raw ≠ "") (hget : env.getFails = false)
    (hfind : db.tokenByHash (sha256Hex lib raw) = some rt) (hrev : rt.Revoked = false)
    (hexp : ¬ rt.ExpiresAt < env.nowCheck) (hrand : env.rand = some b) :
    Thread.step lib tm env ⟨"POST", some ⟨raw⟩⟩ .start db =
      (.create rt (EncodeToString (randomBuffer b))
        (sha256Hex lib (EncodeToString (randomBuffer b))), db) := by
  unfold DB.tokenByHash at hfind
  simp [Thread.step, hraw, hget, GetRefreshTokenByHash, hfind, hrev, hexp, hrand,
    GenerateRefreshToken]

/-- The lookup step of a run that finds its row revoked. -/
theorem step_start_revoked (lib : Lib) (tm : TokenManager) (env : RefreshEnv) (db : DB)
    (raw : String) (rt : RefreshToken)
    (hraw : raw ≠ "") (hget : env.getFails = false)
    (hfind : db.tokenByHash (sha256Hex lib raw) = some rt) (hrev : rt.Revoked = true) :
    Thread.step lib tm env ⟨"POST", some ⟨raw⟩⟩ .start db = (.cascade rt, db) := by
  unfold DB.tokenByHash at hfind
  simp [Thread.step, hraw, hget, GetRefreshTokenByHash, hfind, hrev]

/-- The insert step of a run whose new hash is not in the table. -/
theorem step_create_fresh (lib : Lib) (tm : TokenManager) (env : RefreshEnv)
    (r : Request RefreshRequest) (db : DB) (rt : RefreshToken) (raw h : String)
    (hcreate : env.createFails = false)
    (hfresh : ∀ x ∈ db.refresh_tokens, x.TokenHash ≠ h) :
    Thread.step lib tm env r (.create rt raw h) db =
      (.mark rt raw (db.tokenSeq + 1),
        { db with
          refresh_tokens := db.refresh_tokens ++
            [newRow db env.nowInsert rt.UserID h (env.nowIssue + 24 * Hour) none],
          tokenSeq := db.tokenSeq + 1 }) := by
  simp [Thread.step, CreateRefreshToken, hcreate, insertRefreshToken_fresh _ _ _ _ _ _ hfresh]

/-- The mark step of a run whose mark call and token signing succeed. -/
theorem step_mark_ok (lib : Lib) (tm : TokenManager) (env : RefreshEnv)
    (r : Request RefreshRequest) (db : DB) (rt : RefreshToken) (raw tok : String) (id : Int)
    (hmark : env.markFails = false)
    (htok : tm.GenerateAccessToken lib env.nowExp env.nowIat rt.UserID "" 900 = .ok tok) :
    Thread.step lib tm env r (.mark rt raw id) db =
      (.done ⟨200, .payload ⟨rt.UserID, tok, 900, raw, 86400⟩⟩,
        { db with refresh_tokens := db.refresh_tokens.map (markRow rt.ID id) }) := by
  simp [Thread.step, MarkRefreshTokenRevokedAndSetReplacement, hmark, htok]

/-- A rotating run takes its next step: it is still rotating, has one step less to
take, and leaves every other hash that was not in the table out of it. -/
theorem Thread.Rotating.step (lib : Lib) (tm : TokenManager) (env : RefreshEnv)
    (r : Request RefreshRequest) (rt : RefreshToken) (raw h tok : String)
    (hcreate : env.createFails = false) (hmark : env.markFails = false)
    (htok : tm.GenerateAccessToken lib env.nowExp env.nowIat rt.UserID "" 900 = .ok tok)
    (t : Thread) (db : DB) (hrot : t.Rotating rt raw h db) :
    (Thread.step lib tm env r t db).1.Rotating rt raw h (Thread.step lib tm env r t db).2 ∧
    (Thread.step lib tm env r t db).1.remaining ≤ t.remaining - 1 ∧
    ∀ h', h' ≠ h → (∀ x ∈ db.refresh_tokens, x.TokenHash ≠ h') →
      ∀ x ∈ (Thread.step lib tm env r t db).2.refresh_tokens, x.TokenHash ≠ h' := by
  cases t with
  | start => exact absurd hrot id
  | cascade _ => exact absurd hrot id
  | expire _ => exact absurd hrot id
  | fallback _ => exact absurd hrot id
  | create rt' raw' h' =>
    obtain ⟨rfl, rfl, rfl, hfresh⟩ := hrot
    rw [step_create_fresh lib tm env r db rt' raw' h' hcreate hfresh]
    refine ⟨⟨rfl, rfl⟩, by simp [Thread.remaining], ?_⟩
    intro h'' hne hf x hx
    simp only [List.mem_append, List.mem_singleton] at hx
    rcases hx with hx | rfl
    · exact hf x hx
    · simpa [newRow] using hne.symm
  | mark rt' raw' id =>
    obtain ⟨rfl, rfl⟩ := hrot
    rw [step_mark_ok lib tm env r db rt' raw' tok id hmark htok]
    refine ⟨rfl, by simp [Thread.remaining], ?_⟩
    intro h'' _ hf x hx
    obtain ⟨x₀, hx₀, rfl⟩ := List.mem_map.1 hx
    rw [markRow_hash]
    exact hf x₀ hx₀
  | done resp =>
    refine ⟨hrot, by simp [Thread.step, Thread.remaining], ?_⟩
    intro h'' _ hf x hx
    exact hf x hx

/-- A rotating run stays rotating while the other run steps, as long as its new hash
stays out of the table. -/
theorem Thread.Rotating.other (rt : RefreshToken) (raw h : String) (db db' : DB) (t : Thread)
    (hkeep : (∀ x ∈ db.refresh_tokens, x.TokenHash ≠ h) →
      ∀ x ∈ db'.refresh_tokens, x.TokenHash ≠ h)
    (hrot : t.Rotating rt raw h db) : t.Rotating rt raw h db' := by
  cases t with
  | create rt' raw' h' =>
    obtain ⟨h1, h2, h3, hfresh⟩ := hrot
    exact ⟨h1, h2, h3, hkeep hfresh⟩
  | start => exact hrot
  | cascade _ => exact hrot
  | expire _ => exact hrot
  | fallback _ => exact hrot
  | mark _ _ _ => exact hrot
  | done _ => exact hrot

/-- A rotating run with no step left to take has answered 200. -/
theorem Thread.Rotating.finished (rt : RefreshToken) (raw h : String) (db : DB) (t : Thread)
    (hrot : t.Rotating rt raw h db) (hrem : t.remaining = 0) :
    ∃ resp, t = .done resp ∧ resp.status = 200 := by
  cases t with
  | done resp => exact ⟨resp, rfl, hrot⟩
  | create _ _ _ => simp [Thread.remaining] at hrem
  | mark _ _ _ => simp [Thread.remaining] at hrem
  | start => exact absurd hrot id
  | cascade _ => exact absurd hrot id
  | expire _ => exact absurd hrot id
  | fallback _ => exact absurd hrot id

/-! ### Two runs on one database -/

theorem Config.step_A_done (lib : Lib) (tm : TokenManager) (eA eB : RefreshEnv)
    (rA rB : Request RefreshRequest) (c : Config) (ra : Response TokenResponse)
    (ha : c.a = .done ra) : Config.step lib tm eA eB rA rB c .A = c := by
  obtain ⟨a, b, db⟩ := c
  simp only at ha
  subst ha
  rfl

theorem Config.step_B_done (lib : Lib) (tm : TokenManager) (eA eB : RefreshEnv)
    (rA rB : Request RefreshRequest) (c : Config) (rb : Response TokenResponse)
    (hb : c.b = .done rb) : Config.step lib tm eA eB rA rB c .B = c := by
  obtain ⟨a, b, db⟩ := c
  simp only at hb
  subst hb
  rfl

/-- Once run A is finished, the schedule only advances run B. -/
theorem foldl_step_a_done (lib : Lib) (tm : TokenManager) (eA eB : RefreshEnv)
    (rA rB : Request RefreshRequest) (ra : Response TokenResponse) :
    ∀ (sched : List Turn) (c : Config), c.a = .done ra →
      (sched.foldl (Config.step lib tm eA eB rA rB) c).a = .done ra ∧
      (sched.foldl (Config.step lib tm eA eB rA rB) c).b =
        (Thread.run lib tm eB rB (sched.count .B) (c.b, c.db)).1
  | [], c, ha => ⟨ha, rfl⟩
  | .A :: s, c, ha => by
    simp only [List.foldl_cons, Config.step_A_done lib tm eA eB rA rB c ra ha]
    have := foldl_step_a_done lib tm eA eB rA rB ra s c ha
    simpa using this
  | .B :: s, c, ha => by
    simp only [List.foldl_cons]
    have := foldl_step_a_done lib tm eA eB rA rB ra s (Config.step lib tm eA eB rA rB c .B) ha
    refine ⟨this.1, ?_⟩
    rw [this.2]
    simp [Config.step, Thread.run]

/-- Once run B is finished, the schedule only advances run A. -/
theorem foldl_step_b_done (lib : Lib) (tm : TokenManager) (eA eB : RefreshEnv)
    (rA rB : Request RefreshRequest) (rb : Response TokenResponse) :
    ∀ (sched : List Turn) (c : Config), c.b = .done rb →
      (sched.foldl (Config.step lib tm eA eB rA rB) c).b = .done rb ∧
      (sched.foldl (Config.step lib tm eA eB rA rB) c).a =
        (Thread.run lib tm eA rA (sched.count .A) (c.a, c.db)).1
  | [], c, hb => ⟨hb, rfl⟩
  | .B :: s, c, hb => by
    simp only [List.foldl_cons, Config.step_B_done lib tm eA eB rA rB c rb hb]
    have := foldl_step_b_done lib tm eA eB rA rB rb s c hb
    simpa using this
  | .A :: s, c, hb => by
    simp only [List.foldl_cons]
    have := foldl_step_b_done lib tm eA eB rA rB rb s (Config.step lib tm eA eB rA rB c .A) hb
    refine ⟨this.1, ?_⟩
    rw [this.2]
    simp [Config.step, Thread.run]

/-- A run that starts when its row is already revoked answers 401
`invalid_refresh_token` after two steps, and stays there. -/
theorem run_revoked (lib : Lib) (tm : TokenManager) (env : RefreshEnv) (db : DB)
    (raw : String) (old : RefreshToken)
    (hraw : raw ≠ "") (hget : env.getFails = false)
    (hfind : db.tokenByHash (sha256Hex lib raw) = some old) (hrev : old.Revoked = true)
    (n : Nat) (hn : 2 ≤ n) :
    (Thread.run lib tm env ⟨"POST", some ⟨raw⟩⟩ n (.start, db)).1 =
      .done ⟨401, .error "invalid_refresh_token"⟩ := by
  obtain ⟨k, rfl⟩ : ∃ k, n = 2 + k := ⟨n - 2, by omega⟩
  rw [Thread.run_add]
  have h2 : Thread.run lib tm env ⟨"POST", some ⟨raw⟩⟩ 2 (.start, db) =
      (.done ⟨401, .error "invalid_refresh_token"⟩,
        (RevokeAllRefreshTokensForUser env.revokeAllFails db old.UserID).2) := by
    simp only [Thread.run, step_start_revoked lib tm env db raw old hraw hget hfind hrev]
    rfl
  rw [h2, Thread.run_done]

/-- Two rotating runs with distinct new hashes both answer 200, however the schedule
orders the steps they still have to take. -/
theorem both_rotate (lib : Lib) (tm : TokenManager) (eA eB : RefreshEnv)
    (rA rB : Request RefreshRequest) (rt : RefreshToken) (rawA hA tokA rawB hB tokB : String)
    (hcA : eA.createFails = false) (hmA : eA.markFails = false)
    (htokA : tm.GenerateAccessToken lib eA.nowExp eA.nowIat rt.UserID "" 900 = .ok tokA)
    (hcB : eB.createFails = false) (hmB : eB.markFails = false)
    (htokB : tm.GenerateAccessToken lib eB.nowExp eB.nowIat rt.UserID "" 900 = .ok tokB)
    (hne : hA ≠ hB) :
    ∀ (sched : List Turn) (c : Config),
      c.a.Rotating rt rawA hA c.db → c.b.Rotating rt rawB hB c.db →
      c.a.remaining ≤ sched.count .A → c.b.remaining ≤ sched.count .B →
      ∃ ra rb, (sched.foldl (Config.step lib tm eA eB rA rB) c).a = .done ra ∧
        ra.status = 200 ∧
        (sched.foldl (Config.step lib tm eA eB rA rB) c).b = .done rb ∧ rb.status = 200
  | [], c, ha, hb, hna, hnb => by
    obtain ⟨ra, hra, hsa⟩ := Thread.Rotating.finished rt rawA hA c.db c.a ha (by simpa using hna)
    obtain ⟨rb, hrb, hsb⟩ := Thread.Rotating.finished rt rawB hB c.db c.b hb (by simpa using hnb)
    exact ⟨ra, rb, hra, hsa, hrb, hsb⟩
  | .A :: s, c, ha, hb, hna, hnb => by
    obtain ⟨h1, h2, h3⟩ := Thread.Rotating.step lib tm eA rA rt rawA hA tokA hcA hmA htokA c.a c.db ha
    have hb' := Thread.Rotating.other rt rawB hB c.db (Thread.step lib tm eA rA c.a c.db).2 c.b
      (h3 hB (Ne.symm hne)) hb
    simp only [List.foldl_cons]
    refine both_rotate lib tm eA eB rA rB rt rawA hA tokA rawB hB tokB hcA hmA htokA hcB hmB htokB
      hne s (Config.step lib tm eA eB rA rB c .A) h1 hb' ?_ ?_
    · have : (Turn.A :: s).count .A = s.count .A + 1 := by simp
      show (Thread.step lib tm eA rA c.a c.db).1.remaining ≤ _
      omega
    · have : (Turn.A :: s).count .B = s.count .B := by simp
      show c.b.remaining ≤ _
      omega
  | .B :: s, c, ha, hb, hna, hnb => by
    obtain ⟨h1, h2, h3⟩ := Thread.Rotating.step lib tm eB rB rt rawB hB tokB hcB hmB htokB c.b c.db hb
    have ha' := Thread.Rotating.other rt rawA hA c.db (Thread.step lib tm eB rB c.b c.db).2 c.a
      (h3 hA hne) ha
    simp only [List.foldl_cons]
    refine both_rotate lib tm eA eB rA rB rt rawA hA tokA rawB hB tokB hcA hmA htokA hcB hmB htokB
      hne s (Config.step lib tm eA eB rA rB c .B) ha' h1 ?_ ?_
    · have : (Turn.B :: s).count .A = s.count .A := by simp
      show c.a.remaining ≤ _
      omega
    · have : (Turn.B :: s).count .B = s.count .B + 1 := by simp
      show (Thread.step lib tm eB rB c.b c.db).1.remaining ≤ _
      omega

/-- After run A has made its three store calls on its own, run B finds the row revoked
and answers 401 however the rest of the schedule goes. -/
theorem sequential_rotation (lib : Lib) (tm : TokenManager) (eA eB : RefreshEnv) (db : DB)
    (raw : String) (rt : RefreshToken) (bA : Fin 32 → Byte) (tokA : String)
    (hraw : raw ≠ "")
    (hfind : db.tokenByHash (sha256Hex lib raw) = some rt)
    (hgA : eA.getFails = false) (hcA : eA.createFails = false) (hmA : eA.markFails = false)
    (hrevA : rt.Revoked = false) (hexpA : ¬ rt.ExpiresAt < eA.nowCheck)
    (hrandA : eA.rand = some bA)
    (hfreshA : ∀ x ∈ db.refresh_tokens,
      x.TokenHash ≠ sha256Hex lib (EncodeToString (randomBuffer bA)))
    (htokA : tm.GenerateAccessToken lib eA.nowExp eA.nowIat rt.UserID "" 900 = .ok tokA)
    (hgB : eB.getFails = false) (n : Nat) (hn : 2 ≤ n) :
    ∃ (respA : Response TokenResponse) (db₃ : DB),
      Thread.run lib tm eA ⟨"POST", some ⟨raw⟩⟩ 3 (.start, db) = (.done respA, db₃) ∧
      respA.status = 200 ∧
      (Thread.run lib tm eB ⟨"POST", some ⟨raw⟩⟩ n (.start, db₃)).1 =
        .done ⟨401, .error "invalid_refresh_token"⟩ := by
  refine ⟨⟨200, .payload ⟨rt.UserID, tokA, 900, EncodeToString (randomBuffer bA), 86400⟩⟩,
    { db with
      refresh_tokens := (db.refresh_tokens ++
        [newRow db eA.nowInsert rt.UserID (sha256Hex lib (EncodeToString (randomBuffer bA)))
          (eA.nowIssue + 24 * Hour) none]).map (markRow rt.ID (db.tokenSeq + 1)),
      tokenSeq := db.tokenSeq + 1 }, ?_, rfl, ?_⟩
  · simp only [Thread.run, step_start_live lib tm eA db raw rt bA hraw hgA hfind hrevA hexpA hrandA,
      step_create_fresh lib tm eA _ db rt _ _ hcA hfreshA,
      step_mark_ok lib tm eA _ _ rt _ tokA _ hmA htokA]
  · apply run_revoked lib tm eB _ raw (markRow rt.ID (db.tokenSeq + 1) rt) hraw hgB _ _ n hn
    · unfold DB.tokenByHash at hfind ⊢
      show List.find? _ (List.map _ (_ ++ _)) = _
      rw [find?_map_hash _ (markRow_hash _ _), List.find?_append, hfind]
      rfl
    · simp [markRow]

/-! ### Rejections -/

/-- The response to a request whose record is in a rejected state: 401 with
`refresh_token_expired` for an expired record and `invalid_refresh_token` otherwise. -/
theorem rejected_response (lib : Lib) (tm : TokenManager) (env : RefreshEnv) (db : DB)
    (raw : String) (k : Rejection) (hraw : raw ≠ "") (hget : env.getFails = false)
    (h : Rejected lib env db raw k) :
    (MakeRefreshHandler lib tm env db ⟨"POST", some ⟨raw⟩⟩).1 =
      ⟨401, .error (if k = .expired then "refresh_token_expired" else "invalid_refresh_token")⟩ := by
  cases k with
  | unknown => rw [refresh_unknown_path lib tm env db raw hraw hget h]; rfl
  | revoked =>
    obtain ⟨rt, hfind, hrev⟩ := h
    rw [refresh_reuse_path lib tm env db raw rt hraw hget hfind hrev]
    rfl
  | expired =>
    obtain ⟨rt, hfind, hrev, hexp⟩ := h
    rw [refresh_expired_path lib tm env db raw rt hraw hget hfind hrev hexp]
    rfl

/-! ### Clock arithmetic -/

theorem wrap64_of_fits (x : Int) (h : fitsInt64 x) : wrap64 x = x := by
  unfold fitsInt64 at h
  unfold wrap64
  omega

theorem Unix_add_seconds (t n : Int) : Unix (t + n * Second) = Unix t + n := by
  unfold Unix Second
  omega

theorem Unix_mono {s t : Int} (h : s ≤ t) : Unix s ≤ Unix t := by
  unfold Unix Second
  omega

/-! ## The claims -/

/-- C1. Rotation keeps chain integrity.  When the record of the presented token is not
revoked and not expired and the refresh handler answers 200, the response carries the
owner's id and a new raw token; exactly one row is appended to `refresh_tokens`, whose
hash is the digest of the returned raw token, with the same owner, `revoked = false`,
`replaced_by = NULL` and `expires_at` 24 hours after the clock reading of `newExpires`;
the presented row becomes revoked with `replaced_by` the new row's id; every other row
and the table `users` are unchanged. -/
theorem C1_rotation_chain_integrity (lib : Lib) (tm : TokenManager) (env : RefreshEnv)
    (db db' : DB) (raw : String) (rt : RefreshToken) (resp : Response TokenResponse)
    (hwf : db.WF)
    (hfind : db.tokenByHash (sha256Hex lib raw) = some rt)
    (hrev : rt.Revoked = false)
    (hexp : ¬ rt.ExpiresAt < env.nowCheck)
    (hrun : MakeRefreshHandler lib tm env db ⟨"POST", some ⟨raw⟩⟩ = (resp, db'))
    (hok : resp.status = 200) :
    ∃ (new : RefreshToken) (accessToken newRaw : String),
      resp = ⟨200, .payload ⟨rt.UserID, accessToken, 900, newRaw, 86400⟩⟩ ∧
      new.TokenHash = sha256Hex lib newRaw ∧
      new.UserID = rt.UserID ∧ new.Revoked = false ∧ new.ReplacedBy = none ∧
      new.ExpiresAt = env.nowIssue + 24 * Hour ∧
      (∀ r ∈ db.refresh_tokens, r.ID ≠ new.ID ∧ r.TokenHash ≠ new.TokenHash) ∧
      db'.refresh_tokens =
        db.refresh_tokens.map
          (fun r => if r = rt then { r with Revoked := true, ReplacedBy := some new.ID } else r)
          ++ [new] ∧
      db'.tokenById rt.ID = some { rt with Revoked := true, ReplacedBy := some new.ID } ∧
      db'.tokenByHash (sha256Hex lib newRaw) = some new ∧
      db'.users = db.users := by
  have hok' : (MakeRefreshHandler lib tm env db ⟨"POST", some ⟨raw⟩⟩).1.status = 200 := by
    rw [hrun]; exact hok
  obtain ⟨raw', rt', b, tok, hreq, hraw, hget, hfind', -, -, hrand, hcreate, hfresh,
    hmark, htok⟩ := refresh_ok_inv lib tm env db _ hok'
  have hraw' : raw' = raw := by
    have := congrArg Request.Body hreq
    simp at this
    exact this.symm
  subst hraw'
  have hrt : rt' = rt := by rw [hfind] at hfind'; exact (Option.some.inj hfind').symm
  subst hrt
  have hmem := (tokenByHash_mem hfind).1
  rw [refresh_rotate_path lib tm env db raw' rt' b hraw hget hfind hrev hexp hrand hcreate hfresh]
    at hrun
  simp only [hmark, htok, Bool.false_eq_true, if_false, Prod.mk.injEq] at hrun
  obtain ⟨hresp, hdb⟩ := hrun
  subst hresp hdb
  have hle := hwf.ids_le rt' hmem
  have hnew : markRow rt'.ID (db.tokenSeq + 1)
      (newRow db env.nowInsert rt'.UserID (sha256Hex lib (EncodeToString (randomBuffer b)))
        (env.nowIssue + 24 * Hour) none) =
      newRow db env.nowInsert rt'.UserID (sha256Hex lib (EncodeToString (randomBuffer b)))
        (env.nowIssue + 24 * Hour) none := by
    have hne : db.tokenSeq + 1 ≠ rt'.ID := by omega
    simp [markRow, newRow, hne]
  have hrows : (db.refresh_tokens ++
      [newRow db env.nowInsert rt'.UserID (sha256Hex lib (EncodeToString (randomBuffer b)))
        (env.nowIssue + 24 * Hour) none]).map (markRow rt'.ID (db.tokenSeq + 1)) =
      db.refresh_tokens.map (fun r => if r = rt' then
        { r with Revoked := true, ReplacedBy := some (db.tokenSeq + 1) } else r) ++
      [newRow db env.nowInsert rt'.UserID (sha256Hex lib (EncodeToString (randomBuffer b)))
        (env.nowIssue + 24 * Hour) none] := by
    simp only [List.map_append, List.map_cons, List.map_nil, hnew]
    congr 1
    apply List.map_congr_left
    intro r hr
    exact hwf.markRow_eq hmem (db.tokenSeq + 1) r hr
  refine ⟨newRow db env.nowInsert rt'.UserID (sha256Hex lib (EncodeToString (randomBuffer b)))
    (env.nowIssue + 24 * Hour) none, tok, EncodeToString (randomBuffer b), rfl, rfl, rfl, rfl,
    rfl, rfl, ?_, hrows, ?_, ?_, rfl⟩
  · intro r hr
    refine ⟨?_, hfresh r hr⟩
    have := hwf.ids_le r hr
    simp only [newRow]
    omega
  · show List.find? _ (List.map _ _) = _
    rw [find?_map_id _ (markRow_id _ _), List.find?_append]
    have := hwf.tokenById_of_mem hmem
    unfold DB.tokenById at this
    rw [this]
    simp [markRow, newRow]
  · show List.find? _ (List.map _ _) = _
    rw [find?_map_hash _ (markRow_hash _ _), List.find?_append]
    have hnone : List.find? (fun r => decide (r.TokenHash =
        sha256Hex lib (EncodeToString (randomBuffer b)))) db.refresh_tokens = none := by
      rw [List.find?_eq_none]
      intro r hr
      simpa using hfresh r hr
    rw [hnone]
    simp [newRow, hnew]
    simpa [newRow] using hnew

/-- Witness of C1: the live token of `demoDB` is rotated. -/
theorem C1_rotation_chain_integrity_witness :
    ∃ (new : RefreshToken) (accessToken newRaw : String),
      (MakeRefreshHandler demoLib demoTM demoRefreshEnv demoDB ⟨"POST", some ⟨"a"⟩⟩).1 =
        ⟨200, .payload ⟨1, accessToken, 900, newRaw, 86400⟩⟩ ∧
      new.TokenHash = sha256Hex demoLib newRaw ∧
      (MakeRefreshHandler demoLib demoTM demoRefreshEnv demoDB
          ⟨"POST", some ⟨"a"⟩⟩).2.tokenById 1 =
        some ⟨1, 1, "61", 0, 100, true, some new.ID, none⟩ := by
  obtain ⟨new, tok, newRaw, h1, h2, -, -, -, -, -, -, h3, -, -⟩ :=
    C1_rotation_chain_integrity demoLib demoTM demoRefreshEnv demoDB _ "a"
      ⟨1, 1, "61", 0, 100, false, none, none⟩ _
      ⟨by decide, by decide, by decide, by decide, by decide⟩ (by decide) rfl (by decide) rfl (by decide)
  exact ⟨new, tok, newRaw, h1, h2, h3⟩

/-- C2, counterexample.  In `demoReusedDB` the record of the token `"a"` is revoked and
its owner, user 1, also holds row 2, which is live.  The token is presented and the
`RevokeAllRefreshTokensForUser` call fails in the driver: the handler, which discards the
error of that call, answers 401 `invalid_refresh_token`, and row 2 of user 1 is still
not revoked. -/
theorem C2_reuse_cascade_counterexample :
    demoReusedDB.tokenByHash (sha256Hex demoLib "a") =
      some ⟨1, 1, "61", 0, 100, true, some 2, none⟩ ∧
    (MakeRefreshHandler demoLib demoTM demoRevokeAllFailsEnv demoReusedDB
      ⟨"POST", some ⟨"a"⟩⟩).1 = ⟨401, .error "invalid_refresh_token"⟩ ∧
    (⟨2, 1, "62", 0, 100, false, none, none⟩ : RefreshToken) ∈
      (MakeRefreshHandler demoLib demoTM demoRevokeAllFailsEnv demoReusedDB
        ⟨"POST", some ⟨"a"⟩⟩).2.refresh_tokens ∧
    ¬ ∀ r ∈ (MakeRefreshHandler demoLib demoTM demoRevokeAllFailsEnv demoReusedDB
        ⟨"POST", some ⟨"a"⟩⟩).2.refresh_tokens, r.UserID = 1 → r.Revoked = true := by
  decide

/-- C2, amended.  Reuse cascade.  When a non-empty raw token is presented whose record is
already revoked (whatever its `replaced_by`) and the lookup runs, the refresh handler
answers 401 `invalid_refresh_token`, whether or not its `RevokeAllRefreshTokensForUser`
call, whose error it discards, fails; the database afterwards is the one that call
leaves.  When that call takes effect, afterwards every row
of that record's owner is revoked and the rows of every other user are unchanged; when it
fails in the driver, the database is unchanged.  In both cases the table `users` and the
id counter are unchanged. -/
theorem C2_reuse_cascade (lib : Lib) (tm : TokenManager) (env : RefreshEnv)
    (db db' : DB) (raw : String) (rt : RefreshToken) (resp : Response TokenResponse)
    (hraw : raw ≠ "")
    (hget : env.getFails = false)
    (hfind : db.tokenByHash (sha256Hex lib raw) = some rt)
    (hrev : rt.Revoked = true)
    (hrun : MakeRefreshHandler lib tm env db ⟨"POST", some ⟨raw⟩⟩ = (resp, db')) :
    resp = ⟨401, .error "invalid_refresh_token"⟩ ∧
    db' = (RevokeAllRefreshTokensForUser env.revokeAllFails db rt.UserID).2 ∧
    (env.revokeAllFails = false →
      (∀ r ∈ db'.refresh_tokens, r.UserID = rt.UserID → r.Revoked = true) ∧
      db'.refresh_tokens =
        db.refresh_tokens.map
          (fun r => if r.UserID = rt.UserID then { r with Revoked := true } else r) ∧
      (∀ r : RefreshToken, r.UserID ≠ rt.UserID →
        (r ∈ db'.refresh_tokens ↔ r ∈ db.refresh_tokens))) ∧
    (env.revokeAllFails = true → db' = db) ∧
    db'.users = db.users ∧ db'.tokenSeq = db.tokenSeq := by
  rw [refresh_reuse_path lib tm env db raw rt hraw hget hfind hrev] at hrun
  simp only [Prod.mk.injEq] at hrun
  obtain ⟨hresp, hdb⟩ := hrun
  subst hresp hdb
  refine ⟨rfl, rfl, ?_, ?_, ?_, ?_⟩
  · intro hall
    simp only [RevokeAllRefreshTokensForUser, hall, exec_ok]
    refine ⟨?_, rfl, ?_⟩
    · intro r hr hu
      simp only [List.mem_map] at hr
      obtain ⟨r₀, -, rfl⟩ := hr
      rw [revokeRow_user] at hu
      simp [revokeRow, hu]
    · intro r hu
      simp only [List.mem_map]
      constructor
      · rintro ⟨r₀, hr₀, rfl⟩
        have hne : r₀.UserID ≠ rt.UserID := by rwa [revokeRow_user] at hu
        simpa [revokeRow, hne] using hr₀
      · intro hr
        exact ⟨r, hr, by simp [revokeRow, hu]⟩
  · intro hall
    simp only [RevokeAllRefreshTokensForUser, hall, exec_fail]
  · cases env.revokeAllFails <;> simp [RevokeAllRefreshTokensForUser]
  · cases env.revokeAllFails <;> simp [RevokeAllRefreshTokensForUser]

/-- Witness of C2, amended: the rotated token of `demoReusedDB` is presented again and
the revoke-all call takes effect. -/
theorem C2_reuse_cascade_witness :
    (MakeRefreshHandler demoLib demoTM demoRefreshEnv demoReusedDB ⟨"POST", some ⟨"a"⟩⟩).1 =
      ⟨401, .error "invalid_refresh_token"⟩ ∧
    ∀ r ∈ (MakeRefreshHandler demoLib demoTM demoRefreshEnv demoReusedDB
        ⟨"POST", some ⟨"a"⟩⟩).2.refresh_tokens, r.UserID = 1 → r.Revoked = true :=
  have h := C2_reuse_cascade demoLib demoTM demoRefreshEnv demoReusedDB _ "a"
    ⟨1, 1, "61", 0, 100, true, some 2, none⟩ _ (by decide) rfl (by decide) rfl rfl
  ⟨h.1, (h.2.2.1 rfl).1⟩

/-- C3, counterexample.  The scenario run on `demoDB`: a login issues `demoRaw 0`, a
second login of the same user issues `demoRaw 1`, and the refresh of `demoRaw 0` answers
200 with `demoRaw 2`.  Then `demoRaw 0` is presented again and the
`RevokeAllRefreshTokensForUser` call of the cascade fails in the driver: the handler,
which discards the error of that call, answers 401 `invalid_refresh_token` and leaves the
database as it was, so the record of `demoRaw 1` is still not revoked, and the refresh of
`demoRaw 2` that follows answers 200. -/
theorem C3_refresh_tokens_single_use_counterexample :
    MakeLoginHandler demoLib demoTM demoLoginEnv demoDB demoLoginReq =
      (⟨200, .payload ⟨1, "jwt", 900, demoRaw 0, 86400⟩⟩, demoS₁) ∧
    MakeLoginHandler demoLib demoTM { demoLoginEnv with rand := some (fun _ => 1) } demoS₁
        demoLoginReq =
      (⟨200, .payload ⟨1, "jwt", 900, demoRaw 1, 86400⟩⟩, demoS₂) ∧
    MakeRefreshHandler demoLib demoTM { demoRefreshEnv with rand := some (fun _ => 2) } demoS₂
        ⟨"POST", some ⟨demoRaw 0⟩⟩ =
      (⟨200, .payload ⟨1, "jwt", 900, demoRaw 2, 86400⟩⟩, demoS₃) ∧
    MakeRefreshHandler demoLib demoTM demoRevokeAllFailsEnv demoS₃
        ⟨"POST", some ⟨demoRaw 0⟩⟩ =
      (⟨401, .error "invalid_refresh_token"⟩, demoS₃) ∧
    (∃ rc, demoS₃.tokenByHash (sha256Hex demoLib (demoRaw 1)) = some rc ∧
      rc.Revoked = false) ∧
    (MakeRefreshHandler demoLib demoTM demoRefreshEnvD demoS₃
      ⟨"POST", some ⟨demoRaw 2⟩⟩).1 =
        ⟨200, .payload ⟨1, "jwt", 900, demoRaw 3, 86400⟩⟩ := by
  refine ⟨by decide, by decide, by decide, by decide, ⟨_, rfl, rfl⟩, by decide⟩

/-- C3, amended.  Refresh tokens are single-use, end to end.  Scenario: from any
database, a login returns secret `A` and a second login for the same user returns secret
`C`; refreshing `A` answers 200 with a new secret `B`.  Then refreshing `A` again, the
lookup running, answers 401 `invalid_refresh_token`, whether or not the
`RevokeAllRefreshTokensForUser` call of that run, whose error the handler discards, fails.
When that call takes effect, the record of `C` is left revoked, and refreshing `B` and
then `C`, their lookups running, both answer 401 `invalid_refresh_token`; when it fails in
the driver, the repeated refresh of `A` leaves the database as it was.  In general: once a
refresh of a secret has answered 200, then after any further sequence of register, login
and refresh requests, in any environments, a refresh of that secret does not answer 200,
and answers 401 `invalid_refresh_token` when its lookup does not fail. -/
theorem C3_refresh_tokens_single_use (lib : Lib) (tm : TokenManager)
    (db₀ db₁ db₂ db₃ db₄ db₅ db₆ : DB)
    (envA envC : LoginEnv) (rA rC : Request LoginRequest)
    (e₁ e₂ e₃ e₄ : RefreshEnv)
    (u u' : Int) (accA accC accB A B C : String)
    (resp₂ resp₃ resp₄ : Response TokenResponse)
    (hA : MakeLoginHandler lib tm envA db₀ rA =
      (⟨200, .payload ⟨u, accA, 900, A, 86400⟩⟩, db₁))
    (hC : MakeLoginHandler lib tm envC db₁ rC =
      (⟨200, .payload ⟨u, accC, 900, C, 86400⟩⟩, db₂))
    (h₁ : MakeRefreshHandler lib tm e₁ db₂ ⟨"POST", some ⟨A⟩⟩ =
      (⟨200, .payload ⟨u', accB, 900, B, 86400⟩⟩, db₃))
    (h₂ : MakeRefreshHandler lib tm e₂ db₃ ⟨"POST", some ⟨A⟩⟩ = (resp₂, db₄))
    (h₃ : MakeRefreshHandler lib tm e₃ db₄ ⟨"POST", some ⟨B⟩⟩ = (resp₃, db₅))
    (h₄ : MakeRefreshHandler lib tm e₄ db₅ ⟨"POST", some ⟨C⟩⟩ = (resp₄, db₆))
    (hget₂ : e₂.getFails = false)
    (hget₃ : e₃.getFails = false) (hget₄ : e₄.getFails = false) :
    (u' = u ∧
     resp₂ = ⟨401, .error "invalid_refresh_token"⟩ ∧
     (e₂.revokeAllFails = false →
       (∃ rc, db₄.tokenByHash (sha256Hex lib C) = some rc ∧ rc.Revoked = true) ∧
       resp₃ = ⟨401, .error "invalid_refresh_token"⟩ ∧
       resp₄ = ⟨401, .error "invalid_refresh_token"⟩) ∧
     (e₂.revokeAllFails = true → db₄ = db₃)) ∧
    (∀ (db db' : DB) (env : RefreshEnv) (S : String) (resp : Response TokenResponse),
      MakeRefreshHandler lib tm env db ⟨"POST", some ⟨S⟩⟩ = (resp, db') →
      resp.status = 200 →
      ∀ (ops : List Op) (env' : RefreshEnv),
        (MakeRefreshHandler lib tm env' (serve lib tm db' ops)
          ⟨"POST", some ⟨S⟩⟩).1.status ≠ 200 ∧
        (env'.getFails = false →
          (MakeRefreshHandler lib tm env' (serve lib tm db' ops) ⟨"POST", some ⟨S⟩⟩).1 =
            ⟨401, .error "invalid_refresh_token"⟩)) := by
  constructor
  · -- the two logins
    obtain ⟨-, rowA, hfA, huA⟩ := login_ok_lookup lib tm envA db₀ db₁ rA u accA A hA
    obtain ⟨hCne, rowC, hfC, huC⟩ := login_ok_lookup lib tm envC db₁ db₂ rC u accC C hC
    have hev₁₂ : Evolves db₁ db₂ := by
      have := MakeLoginHandler_evolves lib tm envC db₁ rC
      rwa [hC] at this
    obtain ⟨rowA₂, hfA₂, -, huA₂, -⟩ := hev₁₂.tokenByHash hfA
    -- the successful refresh of A
    obtain ⟨rt, acc, newRaw, hAne, hBne, hresp, hfrt, ⟨old, hfold, hold, huold⟩,
      ⟨new, hfnew, hunew⟩⟩ := refresh_ok_lookup lib tm e₁ db₂ db₃ A _ h₁ rfl
    simp only [Response.mk.injEq, Body.payload.injEq, TokenResponse.mk.injEq, true_and,
      and_true] at hresp
    obtain ⟨hu', -, hB⟩ := hresp
    subst hB
    have hrtA : rt = rowA₂ := by rw [hfA₂] at hfrt; exact (Option.some.inj hfrt).symm
    have hrtu : rt.UserID = u := by rw [hrtA, huA₂, huA]
    have hev₂₃ : Evolves db₂ db₃ := by
      have := MakeRefreshHandler_evolves lib tm e₁ db₂ ⟨"POST", some ⟨A⟩⟩
      rwa [h₁] at this
    obtain ⟨rowC₃, hfC₃, -, huC₃, -⟩ := hev₂₃.tokenByHash hfC
    -- the second refresh of A
    have h₂' := refresh_reuse_path lib tm e₂ db₃ A old hAne hget₂ hfold hold
    rw [h₂] at h₂'
    simp only [Prod.mk.injEq] at h₂'
    obtain ⟨hresp₂, hdb₄⟩ := h₂'
    have hou : old.UserID = u := by rw [huold, hrtu]
    rw [hou] at hdb₄
    refine ⟨by rw [hu', hrtu], hresp₂, ?_, ?_⟩
    · -- the cascade takes effect
      intro hall₂
      rw [hall₂] at hdb₄
      obtain ⟨rowC₄, hfC₄, hrC₄, -⟩ :=
        revokeAll_lookup db₃ u (sha256Hex lib C) rowC₃ hfC₃ (by rw [huC₃, huC])
      obtain ⟨rowB₄, hfB₄, hrB₄, -⟩ :=
        revokeAll_lookup db₃ u (sha256Hex lib B) new hfnew (by rw [hunew, hrtu])
      rw [← hdb₄] at hfC₄ hfB₄
      -- the refresh of B
      have h₃' := (refresh_of_revoked lib tm e₃ db₄ B rowB₄ hfB₄ hrB₄).2 hBne hget₃
      rw [h₃] at h₃'
      have hev₄₅ : Evolves db₄ db₅ := by
        have := MakeRefreshHandler_evolves lib tm e₃ db₄ ⟨"POST", some ⟨B⟩⟩
        rwa [h₃] at this
      obtain ⟨rowC₅, hfC₅, -, -, hrC₅⟩ := hev₄₅.tokenByHash hfC₄
      -- the refresh of C
      have h₄' := (refresh_of_revoked lib tm e₄ db₅ C rowC₅ hfC₅ (hrC₅ hrC₄)).2 hCne hget₄
      rw [h₄] at h₄'
      exact ⟨⟨rowC₄, hfC₄, hrC₄⟩, h₃', h₄'⟩
    · -- the cascade fails in the driver
      intro hall₂
      rw [hall₂, RevokeAll_fail] at hdb₄
      exact hdb₄
  · intro db db' env S resp hrun hok ops env'
    obtain ⟨rt, acc, newRaw, hSne, -, -, -, ⟨old, hfold, hold, -⟩, -⟩ :=
      refresh_ok_lookup lib tm env db db' S resp hrun hok
    obtain ⟨old', hfold', -, -, hold'⟩ := (serve_evolves lib tm ops db').tokenByHash hfold
    have := refresh_of_revoked lib tm env' _ S old' hfold' (hold' hold)
    exact ⟨this.1, this.2 hSne⟩

/-- Witness of C3, amended: the scenario run on `demoDB` with the revoke-all call of the
cascade taking effect; the second presentation of the first secret, and the presentation
of the two other secrets, answer 401. -/
theorem C3_refresh_tokens_single_use_witness :
    (MakeRefreshHandler demoLib demoTM demoRefreshEnv demoS₃ ⟨"POST", some ⟨demoRaw 0⟩⟩).1 =
      ⟨401, .error "invalid_refresh_token"⟩ ∧
    (MakeRefreshHandler demoLib demoTM demoRefreshEnv demoS₄ ⟨"POST", some ⟨demoRaw 2⟩⟩).1 =
      ⟨401, .error "invalid_refresh_token"⟩ ∧
    (MakeRefreshHandler demoLib demoTM demoRefreshEnv demoS₅ ⟨"POST", some ⟨demoRaw 1⟩⟩).1 =
      ⟨401, .error "invalid_refresh_token"⟩ :=
  have h := (C3_refresh_tokens_single_use demoLib demoTM demoDB demoS₁ demoS₂ demoS₃ demoS₄
    demoS₅ _ demoLoginEnv { demoLoginEnv with rand := some (fun _ => 1) } demoLoginReq
    demoLoginReq { demoRefreshEnv with rand := some (fun _ => 2) } demoRefreshEnv
    demoRefreshEnv demoRefreshEnv 1 1 "jwt" "jwt" "jwt" (demoRaw 0) (demoRaw 2) (demoRaw 1)
    _ _ _ (by decide) (by decide) (by decide) rfl rfl rfl rfl rfl rfl).1
  ⟨h.2.1, (h.2.2.1 rfl).2.1, (h.2.2.1 rfl).2.2⟩

/-- C4, counterexample.  In `demoTwoDB` the record of the token `"a"` is live and
expires at 100.  The token is presented at time 200 and the mark call fails in the
driver: the handler, which discards the error of that call, answers 401
`refresh_token_expired`, and the presented row is still not revoked. -/
theorem C4_expiry_is_not_a_cascade_counterexample :
    demoTwoDB.tokenByHash (sha256Hex demoLib "a") =
      some ⟨1, 1, "61", 0, 100, false, none, none⟩ ∧
    (100 : Time) < demoLateMarkFailsEnv.nowCheck ∧
    (MakeRefreshHandler demoLib demoTM demoLateMarkFailsEnv demoTwoDB
      ⟨"POST", some ⟨"a"⟩⟩).1 = ⟨401, .error "refresh_token_expired"⟩ ∧
    (MakeRefreshHandler demoLib demoTM demoLateMarkFailsEnv demoTwoDB
      ⟨"POST", some ⟨"a"⟩⟩).2.tokenById 1 =
        some ⟨1, 1, "61", 0, 100, false, none, none⟩ := by
  decide

/-- C4, amended.  Natural expiry is not a cascade.  When a non-empty raw token is
presented whose record is not revoked and whose `expires_at` is before the clock reading
of the expiry test, and the lookup runs, the refresh handler answers 401
`refresh_token_expired`, whether or not its mark call, whose error it discards, fails;
the database afterwards is the one that call leaves; no row is created, and every other
row (also of the same user), the table `users` and the id counter are unchanged.  When
the mark call takes effect, the presented row becomes revoked; when it fails in the
driver, the database is unchanged. -/
theorem C4_expiry_is_not_a_cascade (lib : Lib) (tm : TokenManager) (env : RefreshEnv)
    (db db' : DB) (raw : String) (rt : RefreshToken) (resp : Response TokenResponse)
    (hwf : db.WF) (hraw : raw ≠ "")
    (hget : env.getFails = false)
    (hfind : db.tokenByHash (sha256Hex lib raw) = some rt)
    (hrev : rt.Revoked = false)
    (hexp : rt.ExpiresAt < env.nowCheck)
    (hrun : MakeRefreshHandler lib tm env db ⟨"POST", some ⟨raw⟩⟩ = (resp, db')) :
    resp = ⟨401, .error "refresh_token_expired"⟩ ∧
    db' = (MarkRefreshTokenRevokedAndSetReplacement env.markFails db rt.ID 0).2 ∧
    (env.markFails = false → ∃ r' ∈ db'.refresh_tokens, r'.ID = rt.ID ∧ r'.Revoked = true) ∧
    (env.markFails = true → db' = db) ∧
    db'.refresh_tokens.length = db.refresh_tokens.length ∧
    db'.refresh_tokens.map (fun r => r.ID) = db.refresh_tokens.map (fun r => r.ID) ∧
    (∀ r ∈ db.refresh_tokens, r ≠ rt → r ∈ db'.refresh_tokens) ∧
    (∀ r' ∈ db'.refresh_tokens, r'.ID ≠ rt.ID → r' ∈ db.refresh_tokens) ∧
    db'.users = db.users ∧ db'.tokenSeq = db.tokenSeq := by
  rw [refresh_expired_path lib tm env db raw rt hraw hget hfind hrev hexp] at hrun
  simp only [Prod.mk.injEq] at hrun
  obtain ⟨hresp, hdb⟩ := hrun
  subst hresp hdb
  have hmem := (tokenByHash_mem hfind).1
  cases hmark : env.markFails
  · rw [Mark_ok]
    refine ⟨rfl, rfl,
      fun _ => ⟨markRow rt.ID 0 rt, List.mem_map_of_mem _ hmem, markRow_id _ _ _, ?_⟩,
      fun h => absurd h (by decide), ?_, ?_, ?_, ?_, rfl, rfl⟩
    · simp [markRow]
    · simp
    · simp [List.map_map, Function.comp_def, markRow_id]
    · intro r hr hne
      have h := hwf.markRow_eq hmem 0 r hr
      rw [if_neg hne] at h
      exact List.mem_map.2 ⟨r, hr, h⟩
    · intro r' hr' hne
      obtain ⟨r, hr, rfl⟩ := List.mem_map.1 hr'
      rw [markRow_id] at hne
      simpa [markRow, hne] using hr
  · rw [Mark_fail]
    exact ⟨rfl, rfl, fun h => absurd h (by decide), fun _ => rfl, rfl, rfl, fun r hr _ => hr,
      fun r hr _ => hr, rfl, rfl⟩

/-- Witness of C4, amended: the first token of `demoTwoDB` is presented after it has
expired and the mark call takes effect; the presented row is revoked and the second token
of the same user stays as it was. -/
theorem C4_expiry_is_not_a_cascade_witness :
    (MakeRefreshHandler demoLib demoTM demoLateEnv demoTwoDB ⟨"POST", some ⟨"a"⟩⟩).1 =
      ⟨401, .error "refresh_token_expired"⟩ ∧
    (∃ r' ∈ (MakeRefreshHandler demoLib demoTM demoLateEnv demoTwoDB
        ⟨"POST", some ⟨"a"⟩⟩).2.refresh_tokens, r'.ID = 1 ∧ r'.Revoked = true) ∧
    (⟨2, 1, "62", 0, 300, false, none, none⟩ : RefreshToken) ∈
      (MakeRefreshHandler demoLib demoTM demoLateEnv demoTwoDB
        ⟨"POST", some ⟨"a"⟩⟩).2.refresh_tokens :=
  have h := C4_expiry_is_not_a_cascade demoLib demoTM demoLateEnv demoTwoDB _ "a"
    ⟨1, 1, "61", 0, 100, false, none, none⟩ _
    ⟨by decide, by decide, by decide, by decide, by decide⟩ (by decide) rfl (by decide) rfl
    (by decide) rfl
  ⟨h.1, h.2.2.1 rfl, h.2.2.2.2.2.2.1 _ (by decide) (by decide)⟩

/-- C5. Issue creates exactly one matching live record.  When the login handler answers
200, the user named in the request exists and passed the password check; exactly one
row of the resulting `refresh_tokens` has the SHA-256 hex digest of the returned refresh
token as its hash; that row is new (no earlier row has its id or hash), belongs to that
user, has `revoked = false` and `replaced_by = NULL`, and expires 24 hours after the
clock reading of `expires`; every earlier row and the table `users` are unchanged. -/
theorem C5_login_issues_one_record (lib : Lib) (tm : TokenManager) (env : LoginEnv)
    (db db' : DB) (r : Request LoginRequest) (resp : Response TokenResponse)
    (hwf : db.WF)
    (hrun : MakeLoginHandler lib tm env db r = (resp, db'))
    (hok : resp.status = 200) :
    ∃ (req : LoginRequest) (user : User) (access raw : String) (new : RefreshToken),
      r.Body = some req ∧
      db.users.find? (fun u => decide (u.Username = req.Username)) = some user ∧
      lib.CompareHashAndPassword user.Password req.Password = true ∧
      resp = ⟨200, .payload ⟨user.ID, access, 900, raw, 86400⟩⟩ ∧
      db'.refresh_tokens.filter (fun x => decide (x.TokenHash = sha256Hex lib raw)) = [new] ∧
      (∀ x ∈ db.refresh_tokens, x.ID ≠ new.ID ∧ x.TokenHash ≠ new.TokenHash) ∧
      new.UserID = user.ID ∧ new.Revoked = false ∧ new.ReplacedBy = none ∧
      new.ExpiresAt = env.nowIssue + 24 * Hour ∧
      db'.refresh_tokens = db.refresh_tokens ++ [new] ∧
      db'.users = db.users := by
  have hok' : (MakeLoginHandler lib tm env db r).1.status = 200 := by rw [hrun]; exact hok
  obtain ⟨req, user, access, b, hreq, -, hfind, hpw, -, -, -, hfresh, heq⟩ :=
    login_ok_inv lib tm env db r hok'
  rw [heq] at hrun
  simp only [Prod.mk.injEq] at hrun
  obtain ⟨hresp, hdb⟩ := hrun
  subst hresp hdb hreq
  refine ⟨req, user, access, EncodeToString (randomBuffer b),
    newRow db env.nowInsert user.ID (sha256Hex lib (EncodeToString (randomBuffer b)))
      (env.nowIssue + 24 * Hour) none, rfl, hfind, hpw, rfl, ?_, ?_, rfl, rfl, rfl, rfl, rfl, rfl⟩
  · have hnone : db.refresh_tokens.filter
        (fun x => decide (x.TokenHash = sha256Hex lib (EncodeToString (randomBuffer b)))) = [] := by
      rw [List.filter_eq_nil_iff]
      intro x hx
      simpa using hfresh x hx
    simp [List.filter_append, hnone, newRow]
  · intro x hx
    refine ⟨?_, hfresh x hx⟩
    have := hwf.ids_le x hx
    simp only [newRow]
    omega

/-- Witness of C5: user `u` logs in on `demoDB`. -/
theorem C5_login_issues_one_record_witness :
    ∃ new : RefreshToken,
      (MakeLoginHandler demoLib demoTM demoLoginEnv demoDB
          demoLoginReq).2.refresh_tokens.filter
        (fun x => decide (x.TokenHash = sha256Hex demoLib (demoRaw 0))) = [new] ∧
      new.UserID = 1 ∧ new.Revoked = false ∧ new.ReplacedBy = none := by
  obtain ⟨req, user, access, raw, new, hreq, hfind, -, hresp, hfilter, -, hu, hr, hrb, -⟩ :=
    C5_login_issues_one_record demoLib demoTM demoLoginEnv demoDB _ demoLoginReq _
      ⟨by decide, by decide, by decide, by decide, by decide⟩ rfl (by decide)
  simp only [Response.mk.injEq, Body.payload.injEq, TokenResponse.mk.injEq, true_and,
    and_true] at hresp
  obtain ⟨huser, -, hraw⟩ := hresp
  subst hraw
  exact ⟨new, hfilter, by rw [hu, ← huser], hr, hrb⟩

/-- C6, counterexample.  In `demoReusedDB` row 1 is revoked with `replaced_by = 2`; after
`MarkRefreshTokenRevokedAndSetReplacement(1, 7)` its `replaced_by` is 7. -/
theorem C6_mark_revoked_counterexample :
    demoReusedDB.tokenById 1 = some ⟨1, 1, "61", 0, 100, true, some 2, none⟩ ∧
    (MarkRefreshTokenRevokedAndSetReplacement false demoReusedDB 1 7).2.tokenById 1 =
      some ⟨1, 1, "61", 0, 100, true, some 7, none⟩ := by
  decide

/-- C6, amended.  `MarkRefreshTokenRevokedAndSetReplacement(id, replacedBy)` is an
unconditional update: whether or not the row with that id is already revoked, the call
returns no error and afterwards the row has `revoked = true` and
`replaced_by = replacedBy`, overwriting an earlier `replaced_by`; rows with another id
are unchanged. -/
theorem C6_mark_revoked_is_unconditional (db : DB) (id replacedBy : Int) (r : RefreshToken)
    (hr : db.tokenById id = some r) :
    (MarkRefreshTokenRevokedAndSetReplacement false db id replacedBy).1 = .ok () ∧
    (MarkRefreshTokenRevokedAndSetReplacement false db id replacedBy).2.tokenById id =
      some { r with Revoked := true, ReplacedBy := some replacedBy } ∧
    ∀ id', id' ≠ id →
      (MarkRefreshTokenRevokedAndSetReplacement false db id replacedBy).2.tokenById id' =
        db.tokenById id' := by
  refine ⟨rfl, ?_, ?_⟩
  · have hid := (tokenById_mem hr).2
    unfold DB.tokenById at hr
    show List.find? _ (List.map _ _) = _
    rw [find?_map_id _ (markRow_id _ _), hr]
    simp [markRow, hid]
  · intro id' hne
    show List.find? _ (List.map _ _) = List.find? _ _
    rw [find?_map_id _ (markRow_id _ _)]
    cases hf : List.find? (fun r => decide (r.ID = id')) db.refresh_tokens with
    | none => rfl
    | some r' =>
      have hid' : r'.ID = id' := by simpa using List.find?_some hf
      have : r'.ID ≠ id := by rw [hid']; exact hne
      simp [markRow, this]

/-- Witness of C6, amended: row 1 of `demoReusedDB`. -/
theorem C6_mark_revoked_is_unconditional_witness :
    (MarkRefreshTokenRevokedAndSetReplacement false demoReusedDB 1 7).2.tokenById 1 =
      some ⟨1, 1, "61", 0, 100, true, some 7, none⟩ :=
  (C6_mark_revoked_is_unconditional demoReusedDB 1 7
    ⟨1, 1, "61", 0, 100, true, some 2, none⟩ (by decide)).2.1

/-- C7, counterexample.  Two runs present the live, unexpired token of `demoDB`; with the
schedule lookup A, lookup B, insert A, insert B, mark A, mark B both answer 200, each
with a new refresh token of its own. -/
theorem C7_concurrent_refresh_counterexample :
    demoDB.tokenByHash (sha256Hex demoLib "a") =
      some ⟨1, 1, "61", 0, 100, false, none, none⟩ ∧
    (interleave demoLib demoTM demoRefreshEnv demoRefreshEnvB ⟨"POST", some ⟨"a"⟩⟩
      ⟨"POST", some ⟨"a"⟩⟩ [.A, .B, .A, .B, .A, .B] demoDB).a =
        .done ⟨200, .payload ⟨1, "jwt", 900, demoRaw 0, 86400⟩⟩ ∧
    (interleave demoLib demoTM demoRefreshEnv demoRefreshEnvB ⟨"POST", some ⟨"a"⟩⟩
      ⟨"POST", some ⟨"a"⟩⟩ [.A, .B, .A, .B, .A, .B] demoDB).b =
        .done ⟨200, .payload ⟨1, "jwt", 900, demoRaw 1, 86400⟩⟩ := by
  decide

/-- C7, amended.  Two runs of the refresh handler present the same raw secret of a live,
unexpired record; no store call fails, and the two new tokens have distinct digests that
are not in the table.  Each run makes its store calls (lookup, insert, mark-revoked) one
at a time, in the order a schedule gives, and the schedule lets each run take at least
three steps.  Then both runs finish, and: if run A takes its three steps before run B
takes its first, A answers 200 and B answers 401 `invalid_refresh_token`; likewise with
A and B exchanged; under every other schedule both runs answer 200. -/
theorem C7_overlapping_refreshes (lib : Lib) (tm : TokenManager) (eA eB : RefreshEnv)
    (db : DB) (raw : String) (rt : RefreshToken) (bA bB : Fin 32 → Byte) (tokA tokB : String)
    (sched : List Turn)
    (hraw : raw ≠ "")
    (hfind : db.tokenByHash (sha256Hex lib raw) = some rt)
    (hrev : rt.Revoked = false)
    (hexpA : ¬ rt.ExpiresAt < eA.nowCheck) (hexpB : ¬ rt.ExpiresAt < eB.nowCheck)
    (hA : eA.Healthy) (hB : eB.Healthy)
    (hrandA : eA.rand = some bA) (hrandB : eB.rand = some bB)
    (hfreshA : ∀ x ∈ db.refresh_tokens,
      x.TokenHash ≠ sha256Hex lib (EncodeToString (randomBuffer bA)))
    (hfreshB : ∀ x ∈ db.refresh_tokens,
      x.TokenHash ≠ sha256Hex lib (EncodeToString (randomBuffer bB)))
    (hne : sha256Hex lib (EncodeToString (randomBuffer bA)) ≠
      sha256Hex lib (EncodeToString (randomBuffer bB)))
    (htokA : tm.GenerateAccessToken lib eA.nowExp eA.nowIat rt.UserID "" 900 = .ok tokA)
    (htokB : tm.GenerateAccessToken lib eB.nowExp eB.nowIat rt.UserID "" 900 = .ok tokB)
    (hcntA : 3 ≤ sched.count .A) (hcntB : 3 ≤ sched.count .B) :
    ∃ respA respB : Response TokenResponse,
      (interleave lib tm eA eB ⟨"POST", some ⟨raw⟩⟩ ⟨"POST", some ⟨raw⟩⟩ sched db).a =
        .done respA ∧
      (interleave lib tm eA eB ⟨"POST", some ⟨raw⟩⟩ ⟨"POST", some ⟨raw⟩⟩ sched db).b =
        .done respB ∧
      ((∃ rest, sched = .A :: .A :: .A :: rest) →
        respA.status = 200 ∧ respB = ⟨401, .error "invalid_refresh_token"⟩) ∧
      ((∃ rest, sched = .B :: .B :: .B :: rest) →
        respB.status = 200 ∧ respA = ⟨401, .error "invalid_refresh_token"⟩) ∧
      ((¬ ∃ rest, sched = .A :: .A :: .A :: rest) →
        (¬ ∃ rest, sched = .B :: .B :: .B :: rest) →
        respA.status = 200 ∧ respB.status = 200) := by
  obtain ⟨hgA, -, hmA, hcA⟩ := hA
  obtain ⟨hgB, -, hmB, hcB⟩ := hB
  have sA := step_start_live lib tm eA db raw rt bA hraw hgA hfind hrev hexpA hrandA
  have sB := step_start_live lib tm eB db raw rt bB hraw hgB hfind hrev hexpB hrandB
  have both := both_rotate lib tm eA eB ⟨"POST", some ⟨raw⟩⟩ ⟨"POST", some ⟨raw⟩⟩ rt
    (EncodeToString (randomBuffer bA)) (sha256Hex lib (EncodeToString (randomBuffer bA))) tokA
    (EncodeToString (randomBuffer bB)) (sha256Hex lib (EncodeToString (randomBuffer bB))) tokB
    hcA hmA htokA hcB hmB htokB hne
  rcases sched with _ | ⟨t₁, _ | ⟨t₂, _ | ⟨t₃, rest⟩⟩⟩
  · simp at hcntA
  · cases t₁ <;> simp at hcntA hcntB
  · cases t₁ <;> cases t₂ <;> simp at hcntA hcntB
  cases t₁ <;> cases t₂
  · -- A A _
    cases t₃
    · -- A A A: run A alone, then run B
      have hnB : 2 ≤ rest.count .B := by simp at hcntB; omega
      obtain ⟨respA, db₃, hrun, hsA, hB401⟩ := sequential_rotation lib tm eA eB db raw rt bA tokA
        hraw hfind hgA hcA hmA hrev hexpA hrandA hfreshA htokA hgB (rest.count .B) hnB
      have hc : interleave lib tm eA eB ⟨"POST", some ⟨raw⟩⟩ ⟨"POST", some ⟨raw⟩⟩
          (.A :: .A :: .A :: rest) db =
          rest.foldl (Config.step lib tm eA eB ⟨"POST", some ⟨raw⟩⟩ ⟨"POST", some ⟨raw⟩⟩)
            ⟨.done respA, .start, db₃⟩ := by
        have h3 : Config.step lib tm eA eB ⟨"POST", some ⟨raw⟩⟩ ⟨"POST", some ⟨raw⟩⟩
            (Config.step lib tm eA eB ⟨"POST", some ⟨raw⟩⟩ ⟨"POST", some ⟨raw⟩⟩
              (Config.step lib tm eA eB ⟨"POST", some ⟨raw⟩⟩ ⟨"POST", some ⟨raw⟩⟩
                ⟨.start, .start, db⟩ .A) .A) .A =
            ⟨(Thread.run lib tm eA ⟨"POST", some ⟨raw⟩⟩ 3 (.start, db)).1, .start,
              (Thread.run lib tm eA ⟨"POST", some ⟨raw⟩⟩ 3 (.start, db)).2⟩ := rfl
        simp only [interleave, List.foldl_cons, h3, hrun]
      obtain ⟨h1, h2⟩ := foldl_step_a_done lib tm eA eB ⟨"POST", some ⟨raw⟩⟩
        ⟨"POST", some ⟨raw⟩⟩ respA rest ⟨.done respA, .start, db₃⟩ rfl
      rw [hc]
      refine ⟨respA, _, h1, h2.trans hB401, fun _ => ⟨hsA, rfl⟩, ?_, ?_⟩
      · rintro ⟨r, h⟩
        cases h
      · intro h
        exact absurd ⟨rest, rfl⟩ h
    · -- A A B: B looks up after A's insert and before A's mark
      have hfreshB₁ : ∀ x ∈ db.refresh_tokens ++
          [newRow db eA.nowInsert rt.UserID (sha256Hex lib (EncodeToString (randomBuffer bA)))
            (eA.nowIssue + 24 * Hour) none],
          x.TokenHash ≠ sha256Hex lib (EncodeToString (randomBuffer bB)) := by
        intro x hx
        simp only [List.mem_append, List.mem_singleton] at hx
        rcases hx with hx | rfl
        · exact hfreshB x hx
        · simpa [newRow] using hne
      have hfind₁ : DB.tokenByHash
          { db with
            refresh_tokens := db.refresh_tokens ++
              [newRow db eA.nowInsert rt.UserID
                (sha256Hex lib (EncodeToString (randomBuffer bA)))
                (eA.nowIssue + 24 * Hour) none],
            tokenSeq := db.tokenSeq + 1 } (sha256Hex lib raw) = some rt := by
        unfold DB.tokenByHash at hfind ⊢
        show List.find? _ (_ ++ _) = _
        rw [List.find?_append, hfind]
        rfl
      have hc : interleave lib tm eA eB ⟨"POST", some ⟨raw⟩⟩ ⟨"POST", some ⟨raw⟩⟩
          (.A :: .A :: .B :: rest) db =
          rest.foldl (Config.step lib tm eA eB ⟨"POST", some ⟨raw⟩⟩ ⟨"POST", some ⟨raw⟩⟩)
            ⟨.mark rt (EncodeToString (randomBuffer bA)) (db.tokenSeq + 1),
              .create rt (EncodeToString (randomBuffer bB))
                (sha256Hex lib (EncodeToString (randomBuffer bB))),
              { db with
                refresh_tokens := db.refresh_tokens ++
                  [newRow db eA.nowInsert rt.UserID
                    (sha256Hex lib (EncodeToString (randomBuffer bA)))
                    (eA.nowIssue + 24 * Hour) none],
                tokenSeq := db.tokenSeq + 1 }⟩ := by
        simp only [interleave, List.foldl_cons, Config.step, sA,
          step_create_fresh lib tm eA _ db rt _ _ hcA hfreshA,
          step_start_live lib tm eB _ raw rt bB hraw hgB hfind₁ hrev hexpB hrandB]
      rw [hc]
      obtain ⟨ra, rb, h1, h2, h3, h4⟩ := both rest
        ⟨.mark rt (EncodeToString (randomBuffer bA)) (db.tokenSeq + 1),
          .create rt (EncodeToString (randomBuffer bB))
            (sha256Hex lib (EncodeToString (randomBuffer bB))),
          { db with
            refresh_tokens := db.refresh_tokens ++
              [newRow db eA.nowInsert rt.UserID
                (sha256Hex lib (EncodeToString (randomBuffer bA)))
                (eA.nowIssue + 24 * Hour) none],
            tokenSeq := db.tokenSeq + 1 }⟩
        ⟨rfl, rfl⟩ ⟨rfl, rfl, rfl, hfreshB₁⟩
        (by
          have : (Turn.A :: Turn.A :: Turn.B :: rest).count .A = rest.count .A + 2 := by simp
          show 1 ≤ rest.count .A
          omega)
        (by
          have : (Turn.A :: Turn.A :: Turn.B :: rest).count .B = rest.count .B + 1 := by simp
          show 2 ≤ rest.count .B
          omega)
      refine ⟨ra, rb, h1, h3, ?_, ?_, fun _ _ => ⟨h2, h4⟩⟩
      · rintro ⟨r, h⟩
        cases h
      · rintro ⟨r, h⟩
        cases h
  · -- A B _: both look up before any mark
    have hc : interleave lib tm eA eB ⟨"POST", some ⟨raw⟩⟩ ⟨"POST", some ⟨raw⟩⟩
        (.A :: .B :: t₃ :: rest) db =
        (t₃ :: rest).foldl
          (Config.step lib tm eA eB ⟨"POST", some ⟨raw⟩⟩ ⟨"POST", some ⟨raw⟩⟩)
          ⟨.create rt (EncodeToString (randomBuffer bA))
              (sha256Hex lib (EncodeToString (randomBuffer bA))),
            .create rt (EncodeToString (randomBuffer bB))
              (sha256Hex lib (EncodeToString (randomBuffer bB))), db⟩ := by
      simp only [interleave, List.foldl_cons, Config.step, sA, sB]
    rw [hc]
    obtain ⟨ra, rb, h1, h2, h3, h4⟩ := both (t₃ :: rest)
      ⟨.create rt (EncodeToString (randomBuffer bA))
          (sha256Hex lib (EncodeToString (randomBuffer bA))),
        .create rt (EncodeToString (randomBuffer bB))
          (sha256Hex lib (EncodeToString (randomBuffer bB))), db⟩
      ⟨rfl, rfl, rfl, hfreshA⟩ ⟨rfl, rfl, rfl, hfreshB⟩
      (by
        have : (Turn.A :: Turn.B :: t₃ :: rest).count .A = (t₃ :: rest).count .A + 1 := by simp
        show 2 ≤ (t₃ :: rest).count .A
        omega)
      (by
        have : (Turn.A :: Turn.B :: t₃ :: rest).count .B = (t₃ :: rest).count .B + 1 := by simp
        show 2 ≤ (t₃ :: rest).count .B
        omega)
    refine ⟨ra, rb, h1, h3, ?_, ?_, fun _ _ => ⟨h2, h4⟩⟩
    · rintro ⟨r, h⟩
      cases h
    · rintro ⟨r, h⟩
      cases h
  · -- B A _: both look up before any mark
    have hc : interleave lib tm eA eB ⟨"POST", some ⟨raw⟩⟩ ⟨"POST", some ⟨raw⟩⟩
        (.B :: .A :: t₃ :: rest) db =
        (t₃ :: rest).foldl
          (Config.step lib tm eA eB ⟨"POST", some ⟨raw⟩⟩ ⟨"POST", some ⟨raw⟩⟩)
          ⟨.create rt (EncodeToString (randomBuffer bA))
              (sha256Hex lib (EncodeToString (randomBuffer bA))),
            .create rt (EncodeToString (randomBuffer bB))
              (sha256Hex lib (EncodeToString (randomBuffer bB))), db⟩ := by
      simp only [interleave, List.foldl_cons, Config.step, sA, sB]
    rw [hc]
    obtain ⟨ra, rb, h1, h2, h3, h4⟩ := both (t₃ :: rest)
      ⟨.create rt (EncodeToString (randomBuffer bA))
          (sha256Hex lib (EncodeToString (randomBuffer bA))),
        .create rt (EncodeToString (randomBuffer bB))
          (sha256Hex lib (EncodeToString (randomBuffer bB))), db⟩
      ⟨rfl, rfl, rfl, hfreshA⟩ ⟨rfl, rfl, rfl, hfreshB⟩
      (by
        have : (Turn.B :: Turn.A :: t₃ :: rest).count .A = (t₃ :: rest).count .A + 1 := by simp
        show 2 ≤ (t₃ :: rest).count .A
        omega)
      (by
        have : (Turn.B :: Turn.A :: t₃ :: rest).count .B = (t₃ :: rest).count .B + 1 := by simp
        show 2 ≤ (t₃ :: rest).count .B
        omega)
    refine ⟨ra, rb, h1, h3, ?_, ?_, fun _ _ => ⟨h2, h4⟩⟩
    · rintro ⟨r, h⟩
      cases h
    · rintro ⟨r, h⟩
      cases h
  · -- B B _
    cases t₃
    · -- B B A: A looks up after B's insert and before B's mark
      have hfreshA₁ : ∀ x ∈ db.refresh_tokens ++
          [newRow db eB.nowInsert rt.UserID (sha256Hex lib (EncodeToString (randomBuffer bB)))
            (eB.nowIssue + 24 * Hour) none],
          x.TokenHash ≠ sha256Hex lib (EncodeToString (randomBuffer bA)) := by
        intro x hx
        simp only [List.mem_append, List.mem_singleton] at hx
        rcases hx with hx | rfl
        · exact hfreshA x hx
        · simpa [newRow] using hne.symm
      have hfind₁ : DB.tokenByHash
          { db with
            refresh_tokens := db.refresh_tokens ++
              [newRow db eB.nowInsert rt.UserID
                (sha256Hex lib (EncodeToString (randomBuffer bB)))
                (eB.nowIssue + 24 * Hour) none],
            tokenSeq := db.tokenSeq + 1 } (sha256Hex lib raw) = some rt := by
        unfold DB.tokenByHash at hfind ⊢
        show List.find? _ (_ ++ _) = _
        rw [List.find?_append, hfind]
        rfl
      have hc : interleave lib tm eA eB ⟨"POST", some ⟨raw⟩⟩ ⟨"POST", some ⟨raw⟩⟩
          (.B :: .B :: .A :: rest) db =
          rest.foldl (Config.step lib tm eA eB ⟨"POST", some ⟨raw⟩⟩ ⟨"POST", some ⟨raw⟩⟩)
            ⟨.create rt (EncodeToString (randomBuffer bA))
                (sha256Hex lib (EncodeToString (randomBuffer bA))),
              .mark rt (EncodeToString (randomBuffer bB)) (db.tokenSeq + 1),
              { db with
                refresh_tokens := db.refresh_tokens ++
                  [newRow db eB.nowInsert rt.UserID
                    (sha256Hex lib (EncodeToString (randomBuffer bB)))
                    (eB.nowIssue + 24 * Hour) none],
                tokenSeq := db.tokenSeq + 1 }⟩ := by
        simp only [interleave, List.foldl_cons, Config.step, sB,
          step_create_fresh lib tm eB _ db rt _ _ hcB hfreshB,
          step_start_live lib tm eA _ raw rt bA hraw hgA hfind₁ hrev hexpA hrandA]
      rw [hc]
      obtain ⟨ra, rb, h1, h2, h3, h4⟩ := both rest
        ⟨.create rt (EncodeToString (randomBuffer bA))
            (sha256Hex lib (EncodeToString (randomBuffer bA))),
          .mark rt (EncodeToString (randomBuffer bB)) (db.tokenSeq + 1),
          { db with
            refresh_tokens := db.refresh_tokens ++
              [newRow db eB.nowInsert rt.UserID
                (sha256Hex lib (EncodeToString (randomBuffer bB)))
                (eB.nowIssue + 24 * Hour) none],
            tokenSeq := db.tokenSeq + 1 }⟩
        ⟨rfl, rfl, rfl, hfreshA₁⟩ ⟨rfl, rfl⟩
        (by
          have : (Turn.B :: Turn.B :: Turn.A :: rest).count .A = rest.count .A + 1 := by simp
          show 2 ≤ rest.count .A
          omega)
        (by
          have : (Turn.B :: Turn.B :: Turn.A :: rest).count .B = rest.count .B + 2 := by simp
          show 1 ≤ rest.count .B
          omega)
      refine ⟨ra, rb, h1, h3, ?_, ?_, fun _ _ => ⟨h2, h4⟩⟩
      · rintro ⟨r, h⟩
        cases h
      · rintro ⟨r, h⟩
        cases h
    · -- B B B: run B alone, then run A
      have hnA : 2 ≤ rest.count .A := by simp at hcntA; omega
      obtain ⟨respB, db₃, hrun, hsB, hA401⟩ := sequential_rotation lib tm eB eA db raw rt bB tokB
        hraw hfind hgB hcB hmB hrev hexpB hrandB hfreshB htokB hgA (rest.count .A) hnA
      have hc : interleave lib tm eA eB ⟨"POST", some ⟨raw⟩⟩ ⟨"POST", some ⟨raw⟩⟩
          (.B :: .B :: .B :: rest) db =
          rest.foldl (Config.step lib tm eA eB ⟨"POST", some ⟨raw⟩⟩ ⟨"POST", some ⟨raw⟩⟩)
            ⟨.start, .done respB, db₃⟩ := by
        have h3 : Config.step lib tm eA eB ⟨"POST", some ⟨raw⟩⟩ ⟨"POST", some ⟨raw⟩⟩
            (Config.step lib tm eA eB ⟨"POST", some ⟨raw⟩⟩ ⟨"POST", some ⟨raw⟩⟩
              (Config.step lib tm eA eB ⟨"POST", some ⟨raw⟩⟩ ⟨"POST", some ⟨raw⟩⟩
                ⟨.start, .start, db⟩ .B) .B) .B =
            ⟨.start, (Thread.run lib tm eB ⟨"POST", some ⟨raw⟩⟩ 3 (.start, db)).1,
              (Thread.run lib tm eB ⟨"POST", some ⟨raw⟩⟩ 3 (.start, db)).2⟩ := rfl
        simp only [interleave, List.foldl_cons, h3, hrun]
      obtain ⟨h1, h2⟩ := foldl_step_b_done lib tm eA eB ⟨"POST", some ⟨raw⟩⟩
        ⟨"POST", some ⟨raw⟩⟩ respB rest ⟨.start, .done respB, db₃⟩ rfl
      rw [hc]
      refine ⟨_, respB, h2.trans hA401, h1, ?_, fun _ => ⟨hsB, rfl⟩, ?_⟩
      · rintro ⟨r, h⟩
        cases h
      · intro _ h
        exact absurd ⟨rest, rfl⟩ h

/-- Witness of C7, amended: on `demoDB`, run A takes its three steps before run B
starts; A answers 200 and B answers 401. -/
theorem C7_overlapping_refreshes_witness :
    ∃ respA : Response TokenResponse,
      (interleave demoLib demoTM demoRefreshEnv demoRefreshEnvB ⟨"POST", some ⟨"a"⟩⟩
        ⟨"POST", some ⟨"a"⟩⟩ [.A, .A, .A, .B, .B, .B] demoDB).a = .done respA ∧
      respA.status = 200 ∧
      (interleave demoLib demoTM demoRefreshEnv demoRefreshEnvB ⟨"POST", some ⟨"a"⟩⟩
        ⟨"POST", some ⟨"a"⟩⟩ [.A, .A, .A, .B, .B, .B] demoDB).b =
          .done ⟨401, .error "invalid_refresh_token"⟩ := by
  obtain ⟨ra, rb, h1, h2, h3, -, -⟩ :=
    C7_overlapping_refreshes demoLib demoTM demoRefreshEnv demoRefreshEnvB demoDB "a"
      ⟨1, 1, "61", 0, 100, false, none, none⟩ (fun _ => 0) (fun _ => 1) "jwt" "jwt"
      [.A, .A, .A, .B, .B, .B] (by decide) (by decide) rfl (by decide) (by decide)
      ⟨rfl, rfl, rfl, rfl⟩ ⟨rfl, rfl, rfl, rfl⟩ rfl rfl (by decide) (by decide) (by decide)
      rfl rfl (by decide) (by decide)
  obtain ⟨h4, h5⟩ := h3 ⟨_, rfl⟩
  exact ⟨ra, h1, h4, h5 ▸ h2⟩

/-- C8, counterexample.  The token of `demoDB` is live and expires at 100; presented at
time 200, its row ends up with `replaced_by = 0`, not `NULL`. -/
theorem C8_expired_record_counterexample :
    demoDB.tokenByHash (sha256Hex demoLib "a") = some ⟨1, 1, "61", 0, 100, false, none, none⟩ ∧
    (100 : Time) < demoLateEnv.nowCheck ∧
    (MakeRefreshHandler demoLib demoTM demoLateEnv demoDB ⟨"POST", some ⟨"a"⟩⟩).2.tokenById 1 =
      some ⟨1, 1, "61", 0, 100, true, some 0, none⟩ := by
  decide

/-- C8, amended.  When a (non-empty) raw token is presented whose record is not revoked
and past its `expires_at`, after the refresh handler has run the row has `revoked = true` and
`replaced_by = 0`, the value the handler passes for "no replacement"; no row has id 0.
The lookup and the mark call are taken not to fail in the driver. -/
theorem C8_expired_record_revoked_replaced_by_zero (lib : Lib) (tm : TokenManager)
    (env : RefreshEnv) (db db' : DB) (raw : String) (rt : RefreshToken)
    (resp : Response TokenResponse)
    (hwf : db.WF) (hraw : raw ≠ "")
    (hget : env.getFails = false) (hmark : env.markFails = false)
    (hfind : db.tokenByHash (sha256Hex lib raw) = some rt)
    (hrev : rt.Revoked = false)
    (hexp : rt.ExpiresAt < env.nowCheck)
    (hrun : MakeRefreshHandler lib tm env db ⟨"POST", some ⟨raw⟩⟩ = (resp, db')) :
    db'.tokenById rt.ID = some { rt with Revoked := true, ReplacedBy := some 0 } ∧
    db'.tokenByHash (sha256Hex lib raw) = some { rt with Revoked := true, ReplacedBy := some 0 } ∧
    ∀ r ∈ db'.refresh_tokens, r.ID ≠ 0 := by
  rw [refresh_expired_path lib tm env db raw rt hraw hget hfind hrev hexp] at hrun
  simp only [MarkRefreshTokenRevokedAndSetReplacement, hmark, exec_ok, Prod.mk.injEq] at hrun
  obtain ⟨-, hdb⟩ := hrun
  subst hdb
  have hmem := (tokenByHash_mem hfind).1
  refine ⟨?_, ?_, ?_⟩
  · have := hwf.tokenById_of_mem hmem
    unfold DB.tokenById at this
    show List.find? _ (List.map _ _) = _
    rw [find?_map_id _ (markRow_id _ _), this]
    simp [markRow]
  · unfold DB.tokenByHash at hfind
    show List.find? _ (List.map _ _) = _
    rw [find?_map_hash _ (markRow_hash _ _), hfind]
    simp [markRow]
  · intro r hr
    obtain ⟨r₀, hr₀, rfl⟩ := List.mem_map.1 hr
    rw [markRow_id]
    have := hwf.ids_pos r₀ hr₀
    omega

/-- Witness of C8, amended: the token of `demoDB` presented at time 200. -/
theorem C8_expired_record_revoked_replaced_by_zero_witness :
    (MakeRefreshHandler demoLib demoTM demoLateEnv demoDB ⟨"POST", some ⟨"a"⟩⟩).2.tokenByHash
      (sha256Hex demoLib "a") = some ⟨1, 1, "61", 0, 100, true, some 0, none⟩ :=
  (C8_expired_record_revoked_replaced_by_zero demoLib demoTM demoLateEnv demoDB _ "a"
    ⟨1, 1, "61", 0, 100, false, none, none⟩ _
    ⟨by decide, by decide, by decide, by decide, by decide⟩ (by decide) rfl rfl (by decide) rfl
    (by decide) rfl).2.1

/-- C9, counterexample.  For a decoded token whose method is HS384, not HS256, the
key-selection callback returns the secret, and verification succeeds when the signature
and claims checks pass. -/
theorem C9_verify_algorithm_counterexample :
    SigningMethod.HS384 ≠ SigningMethod.HS256 ∧
    keyFunc demoTM ⟨.HS384, ⟨"1", "u", 950, 50⟩, "h.c", "s", false⟩ = .ok [1] ∧
    demoTM.VerifyAccessToken demoLibHS384 60 "h.c.s" = .ok ⟨"1", "u", 950, 50⟩ :=
  ⟨by decide, rfl, rfl⟩

/-- C9, amended.  `VerifyAccessToken` rejects every token whose signing method is not
an HMAC method (HS256, HS384 or HS512): for every decoded token the key-selection
callback returns an error exactly when the method is none of these three, and then
verification fails, whatever the library says about the signature and the claims. -/
theorem C9_verify_rejects_non_hmac (lib : Lib) (m : TokenManager) (now : Time)
    (tokenStr : String) (t : Token)
    (hparse : lib.ParseUnverified tokenStr = .ok t) :
    ((∃ e, keyFunc m t = .error e) ↔
      (t.Method ≠ .HS256 ∧ t.Method ≠ .HS384 ∧ t.Method ≠ .HS512)) ∧
    ((t.Method ≠ .HS256 ∧ t.Method ≠ .HS384 ∧ t.Method ≠ .HS512) →
      ∃ e, m.VerifyAccessToken lib now tokenStr = .error e) := by
  have hty : t.Method.goType = .SigningMethodHMAC ↔
      ¬ (t.Method ≠ .HS256 ∧ t.Method ≠ .HS384 ∧ t.Method ≠ .HS512) := by
    cases t.Method <;> simp [SigningMethod.goType]
  constructor
  · constructor
    · rintro ⟨e, he⟩
      by_contra hcon
      have := hty.2 hcon
      simp [keyFunc, this] at he
    · intro hmethod
      have : t.Method.goType ≠ .SigningMethodHMAC := fun h => hty.1 h hmethod
      exact ⟨"unexpected signing method: " ++ t.Method.Alg, by simp [keyFunc, this]⟩
  · intro hmethod
    have hne : t.Method.goType ≠ .SigningMethodHMAC := fun h => hty.1 h hmethod
    have hkey : keyFunc m t = .error ("unexpected signing method: " ++ t.Method.Alg) := by
      simp [keyFunc, hne]
    unfold TokenManager.VerifyAccessToken
    split
    · exact ⟨_, rfl⟩
    · simp [Parse, hparse, hkey]

/-- Witness of C9, amended: a token decoded with method RS256. -/
theorem C9_verify_rejects_non_hmac_witness :
    ∃ e, demoTM.VerifyAccessToken demoLibRS256 60 "h.c.s" = .error e :=
  (C9_verify_rejects_non_hmac demoLibRS256 demoTM 60 "h.c.s"
    ⟨.RS256, ⟨"1", "u", 950, 50⟩, "h.c", "s", false⟩ rfl).2 (by decide)

/-- C10, counterexample.  The token `"a"` of `demoDB` is live and not expired.  It is
presented, the replacement row 2 is inserted, the mark call fails in the driver and so
does the `RevokeAllRefreshTokensForUser` call that follows: the handler, which discards
the error of that call, answers 500 `internal_error`, and afterwards the presented row 1
and the inserted row 2 are both not revoked. -/
theorem C10_mark_failure_counterexample :
    demoDB.tokenByHash (sha256Hex demoLib "a") =
      some ⟨1, 1, "61", 0, 100, false, none, none⟩ ∧
    (MakeRefreshHandler demoLib demoTM demoBothFailEnv demoDB ⟨"POST", some ⟨"a"⟩⟩).1 =
      ⟨500, .error "internal_error"⟩ ∧
    (MakeRefreshHandler demoLib demoTM demoBothFailEnv demoDB
      ⟨"POST", some ⟨"a"⟩⟩).2.refresh_tokens =
        [⟨1, 1, "61", 0, 100, false, none, none⟩,
         ⟨2, 1, sha256Hex demoLib (demoRaw 0), 50, 50 + 24 * Hour, false, none, none⟩] := by
  decide

/-- C10, amended.  Failure while marking the old token falls back to family revocation.
When the record of the presented (non-empty) token is live, the replacement row has been
inserted (`CreateRefreshToken` returned its id) and
`MarkRefreshTokenRevokedAndSetReplacement` then returns an error, the handler calls
`RevokeAllRefreshTokensForUser` for the owner, discards the error of that call and answers
500 `internal_error`.  When the call takes effect, afterwards the presented row, the
inserted row and every other row of the owner are revoked; when it fails in the driver,
the database is left as the insert left it, with the presented row and the inserted row
both not revoked. -/
theorem C10_mark_failure_revokes_family (lib : Lib) (tm : TokenManager) (env : RefreshEnv)
    (db db₁ db₂ db' : DB) (raw newRaw newHash : String) (rt : RefreshToken) (newID : Int)
    (e : StoreError) (resp : Response TokenResponse)
    (hraw : raw ≠ "") (hget : env.getFails = false)
    (hfind : db.tokenByHash (sha256Hex lib raw) = some rt)
    (hrev : rt.Revoked = false) (hexp : ¬ rt.ExpiresAt < env.nowCheck)
    (hgen : GenerateRefreshToken lib env.rand = .ok (newRaw, newHash))
    (hcreate : CreateRefreshToken env.createFails env.nowInsert db rt.UserID newHash
      (env.nowIssue + 24 * Hour) none = (.ok newID, db₁))
    (hmark : MarkRefreshTokenRevokedAndSetReplacement env.markFails db₁ rt.ID newID =
      (.error e, db₂))
    (hrun : MakeRefreshHandler lib tm env db ⟨"POST", some ⟨raw⟩⟩ = (resp, db')) :
    resp = ⟨500, .error "internal_error"⟩ ∧
    db' = (RevokeAllRefreshTokensForUser env.revokeAllFails db₂ rt.UserID).2 ∧
    (env.revokeAllFails = false →
      (∃ old, db'.tokenByHash (sha256Hex lib raw) = some old ∧ old.ID = rt.ID ∧
        old.Revoked = true) ∧
      (∃ new, db'.tokenByHash newHash = some new ∧ new.ID = newID ∧
        new.UserID = rt.UserID ∧ new.Revoked = true) ∧
      (∀ r ∈ db'.refresh_tokens, r.UserID = rt.UserID → r.Revoked = true)) ∧
    (env.revokeAllFails = true →
      db' = db₁ ∧
      db'.tokenByHash (sha256Hex lib raw) = some rt ∧
      (∃ new, db'.tokenByHash newHash = some new ∧ new.ID = newID ∧
        new.UserID = rt.UserID ∧ new.Revoked = false)) := by
  have hrun' : MakeRefreshHandler lib tm env db ⟨"POST", some ⟨raw⟩⟩ =
      (⟨500, .error "internal_error"⟩,
        (RevokeAllRefreshTokensForUser env.revokeAllFails db₂ rt.UserID).2) := by
    unfold DB.tokenByHash at hfind
    simp [MakeRefreshHandler, hraw, hget, GetRefreshTokenByHash, hfind, hrev, hexp, hgen,
      hcreate, hmark]
  rw [hrun'] at hrun
  simp only [Prod.mk.injEq] at hrun
  obtain ⟨hresp, hdb⟩ := hrun
  subst hresp hdb
  -- the insert appended the new row, the failed mark changed nothing
  have hcf : env.createFails = false := by
    cases hc : env.createFails
    · rfl
    · simp [CreateRefreshToken, hc] at hcreate
  have hfresh : ∀ r ∈ db.refresh_tokens, r.TokenHash ≠ newHash := by
    intro r hr heq
    simp [CreateRefreshToken, hcf, insertRefreshToken_dup _ _ _ _ _ _ ⟨r, hr, heq⟩] at hcreate
  simp only [CreateRefreshToken, hcf, exec_ok, insertRefreshToken_fresh _ _ _ _ _ _ hfresh,
    Prod.mk.injEq, Except.ok.injEq] at hcreate
  obtain ⟨hid, hdb₁⟩ := hcreate
  have hmf : env.markFails = true := by
    cases hm : env.markFails
    · simp [MarkRefreshTokenRevokedAndSetReplacement, hm] at hmark
    · rfl
  simp only [MarkRefreshTokenRevokedAndSetReplacement, hmf, exec_fail, Prod.mk.injEq] at hmark
  obtain ⟨-, hdb₂⟩ := hmark
  subst hdb₂ hdb₁ hid
  have hnone : List.find? (fun r => decide (r.TokenHash = newHash)) db.refresh_tokens = none := by
    rw [List.find?_eq_none]
    intro r hr
    simpa using hfresh r hr
  refine ⟨rfl, rfl, ?_, ?_⟩
  · intro hall
    rw [hall, RevokeAll_ok]
    refine ⟨?_, ?_, ?_⟩
    · refine ⟨revokeRow rt.UserID rt, ?_, revokeRow_id _ _, by simp [revokeRow]⟩
      unfold DB.tokenByHash at hfind ⊢
      show List.find? _ (List.map _ (_ ++ _)) = _
      rw [find?_map_hash _ (revokeRow_hash _), List.find?_append, hfind]
      rfl
    · refine ⟨revokeRow rt.UserID
        (newRow db env.nowInsert rt.UserID newHash (env.nowIssue + 24 * Hour) none), ?_,
        by rw [revokeRow_id]; rfl, by rw [revokeRow_user]; rfl, by simp [revokeRow, newRow]⟩
      show List.find? _ (List.map _ (_ ++ _)) = _
      rw [find?_map_hash _ (revokeRow_hash _), List.find?_append, hnone]
      simp [newRow]
    · intro r hr hu
      obtain ⟨r₀, -, rfl⟩ := List.mem_map.1 hr
      rw [revokeRow_user] at hu
      simp [revokeRow, hu]
  · intro hall
    rw [hall, RevokeAll_fail]
    refine ⟨rfl, ?_, ?_⟩
    · unfold DB.tokenByHash at hfind ⊢
      show List.find? _ (_ ++ _) = _
      rw [List.find?_append, hfind]
      rfl
    · refine ⟨newRow db env.nowInsert rt.UserID newHash (env.nowIssue + 24 * Hour) none, ?_,
        rfl, rfl, rfl⟩
      show List.find? _ (_ ++ _) = _
      rw [List.find?_append, hnone]
      simp [newRow]

/-- Witness of C10, amended: the live token of `demoDB` is presented, the mark call fails
and the revoke-all call takes effect. -/
theorem C10_mark_failure_revokes_family_witness :
    (MakeRefreshHandler demoLib demoTM demoMarkFailsEnv demoDB ⟨"POST", some ⟨"a"⟩⟩).1 =
      ⟨500, .error "internal_error"⟩ ∧
    ∀ r ∈ (MakeRefreshHandler demoLib demoTM demoMarkFailsEnv demoDB
        ⟨"POST", some ⟨"a"⟩⟩).2.refresh_tokens, r.UserID = 1 → r.Revoked = true :=
  have h := C10_mark_failure_revokes_family demoLib demoTM demoMarkFailsEnv demoDB
    (CreateRefreshToken false 50 demoDB 1 (sha256Hex demoLib (demoRaw 0)) (50 + 24 * Hour) none).2
    (CreateRefreshToken false 50 demoDB 1 (sha256Hex demoLib (demoRaw 0)) (50 + 24 * Hour) none).2
    _ "a" (demoRaw 0) (sha256Hex demoLib (demoRaw 0)) ⟨1, 1, "61", 0, 100, false, none, none⟩ 2
    .driver _ (by decide) rfl (by decide) rfl (by decide) rfl rfl rfl rfl
  ⟨h.1, (h.2.2.1 rfl).2.2⟩

/-- C11, counterexample.  On `demoDB` at time 200, the unknown token `"zz"` and the
expired token `"a"` are both rejected for the state of their record, both with status
401, and the two response bodies differ. -/
theorem C11_rejections_counterexample :
    Rejected demoLib demoLateEnv demoDB "zz" .unknown ∧
    Rejected demoLib demoLateEnv demoDB "a" .expired ∧
    (MakeRefreshHandler demoLib demoTM demoLateEnv demoDB ⟨"POST", some ⟨"zz"⟩⟩).1 =
      ⟨401, .error "invalid_refresh_token"⟩ ∧
    (MakeRefreshHandler demoLib demoTM demoLateEnv demoDB ⟨"POST", some ⟨"a"⟩⟩).1 =
      ⟨401, .error "refresh_token_expired"⟩ ∧
    (MakeRefreshHandler demoLib demoTM demoLateEnv demoDB ⟨"POST", some ⟨"zz"⟩⟩).1.body ≠
      (MakeRefreshHandler demoLib demoTM demoLateEnv demoDB ⟨"POST", some ⟨"a"⟩⟩).1.body :=
  ⟨by show demoDB.tokenByHash _ = none; decide,
    ⟨⟨1, 1, "61", 0, 100, false, none, none⟩, by decide, rfl, by decide⟩,
    by decide, by decide, by decide⟩

/-- C11, amended.  Two refresh requests carrying a non-empty token, each rejected for the
state of its record (unknown, already revoked, or expired; lookups not failing in the
driver), both get HTTP status 401.  The body is `invalid_refresh_token` for an unknown
and for an already-revoked token and `refresh_token_expired` for an expired one, so the
two responses are identical exactly when both tokens are expired or neither is: the
response tells an expired token from the two other states, and does not tell those two
from each other. -/
theorem C11_rejections_by_record_state (lib : Lib) (tm : TokenManager)
    (env₁ env₂ : RefreshEnv) (db₁ db₂ : DB) (raw₁ raw₂ : String) (k₁ k₂ : Rejection)
    (hraw₁ : raw₁ ≠ "") (hraw₂ : raw₂ ≠ "")
    (hget₁ : env₁.getFails = false) (hget₂ : env₂.getFails = false)
    (h₁ : Rejected lib env₁ db₁ raw₁ k₁) (h₂ : Rejected lib env₂ db₂ raw₂ k₂) :
    (MakeRefreshHandler lib tm env₁ db₁ ⟨"POST", some ⟨raw₁⟩⟩).1.status = 401 ∧
    (MakeRefreshHandler lib tm env₂ db₂ ⟨"POST", some ⟨raw₂⟩⟩).1.status = 401 ∧
    (MakeRefreshHandler lib tm env₁ db₁ ⟨"POST", some ⟨raw₁⟩⟩).1.body =
      .error (if k₁ = .expired then "refresh_token_expired" else "invalid_refresh_token") ∧
    (MakeRefreshHandler lib tm env₂ db₂ ⟨"POST", some ⟨raw₂⟩⟩).1.body =
      .error (if k₂ = .expired then "refresh_token_expired" else "invalid_refresh_token") ∧
    ((MakeRefreshHandler lib tm env₁ db₁ ⟨"POST", some ⟨raw₁⟩⟩).1 =
        (MakeRefreshHandler lib tm env₂ db₂ ⟨"POST", some ⟨raw₂⟩⟩).1 ↔
      (k₁ = .expired ↔ k₂ = .expired)) := by
  rw [rejected_response lib tm env₁ db₁ raw₁ k₁ hraw₁ hget₁ h₁,
    rejected_response lib tm env₂ db₂ raw₂ k₂ hraw₂ hget₂ h₂]
  refine ⟨rfl, rfl, rfl, rfl, ?_⟩
  by_cases e₁ : k₁ = .expired <;> by_cases e₂ : k₂ = .expired <;> simp [e₁, e₂]

/-- Witness of C11, amended: on `demoReusedDB` the unknown token `"zz"` and the rotated
token `"a"` get the same response. -/
theorem C11_rejections_by_record_state_witness :
    (MakeRefreshHandler demoLib demoTM demoRefreshEnv demoReusedDB ⟨"POST", some ⟨"zz"⟩⟩).1 =
      (MakeRefreshHandler demoLib demoTM demoRefreshEnv demoReusedDB ⟨"POST", some ⟨"a"⟩⟩).1 :=
  (C11_rejections_by_record_state demoLib demoTM demoRefreshEnv demoRefreshEnv demoReusedDB
    demoReusedDB "zz" "a" .unknown .revoked (by decide) (by decide) rfl rfl
    (by show demoReusedDB.tokenByHash _ = none; decide)
    ⟨⟨1, 1, "61", 0, 100, true, some 2, none⟩, by decide, rfl⟩).2.2.2.2.2 (by decide)

/-- C12. `RevokeAllRefreshTokensForUser` is idempotent.  For every database and every
user id the call returns no error, and a second call right after the first returns the
same result and leaves the same database as the first alone (also when the second call
fails in the driver); on a single row, revoking a row that the call has revoked changes
nothing. -/
theorem C12_revoke_all_idempotent (db : DB) (userID : Int) :
    (RevokeAllRefreshTokensForUser false db userID).1 = .ok () ∧
    RevokeAllRefreshTokensForUser false
        (RevokeAllRefreshTokensForUser false db userID).2 userID =
      RevokeAllRefreshTokensForUser false db userID ∧
    (∀ fails : Bool,
      (RevokeAllRefreshTokensForUser fails
          (RevokeAllRefreshTokensForUser false db userID).2 userID).2 =
        (RevokeAllRefreshTokensForUser false db userID).2) ∧
    ∀ r : RefreshToken, revokeRow userID (revokeRow userID r) = revokeRow userID r := by
  have hrow : ∀ r : RefreshToken, revokeRow userID (revokeRow userID r) = revokeRow userID r := by
    intro r
    unfold revokeRow
    by_cases hu : r.UserID = userID <;> simp [hu]
  have hmap : (db.refresh_tokens.map (revokeRow userID)).map (revokeRow userID) =
      db.refresh_tokens.map (revokeRow userID) := by
    rw [List.map_map]
    apply List.map_congr_left
    intro r _
    exact hrow r
  refine ⟨rfl, ?_, ?_, hrow⟩
  · simp [RevokeAllRefreshTokensForUser, hmap]
  · intro fails
    cases fails
    · simp [RevokeAllRefreshTokensForUser, hmap]
    · simp [RevokeAllRefreshTokensForUser]

/-- C13, counterexample.  With ttl 900, the clock read at 0.999999999 s for `exp` and at
1.000000000 s for `iat`, the claims have `exp = 900` and `iat = 1`, so `exp` is not
`iat + 900`.  With both readings at 0 and ttl 9223372037 the product
`time.Duration(ttlSeconds) * time.Second` wraps and `exp` is negative. -/
theorem C13_access_claims_counterexample :
    (accessClaims 7 "u" 900 999999999 1000000000).exp = 900 ∧
    (accessClaims 7 "u" 900 999999999 1000000000).iat = 1 ∧
    (accessClaims 7 "u" 900 999999999 1000000000).exp ≠
      (accessClaims 7 "u" 900 999999999 1000000000).iat + 900 ∧
    (accessClaims 7 "u" 9223372037 0 0).exp = -9223372037 ∧
    (accessClaims 7 "u" 9223372037 0 0).exp ≠
      (accessClaims 7 "u" 9223372037 0 0).iat + 9223372037 := by
  decide

/-- C13, amended.  For every user id, username and ttlSeconds, the claims
`GenerateAccessToken` signs have `sub` the decimal string of the user id, `username` the
given username, `iat` the Unix second of the clock reading taken for `iat`, and `exp` the
Unix second of the earlier clock reading taken for `exp` plus the `int64` duration.  When
`ttlSeconds * 10^9` fits in `int64`, `exp` is the Unix second of its own clock reading
plus `ttlSeconds`; then `exp = iat + ttlSeconds` exactly when the two readings fall in the
same second, and `exp ≤ iat + ttlSeconds` when the clock does not go backwards between
them. -/
theorem C13_access_claims (lib : Lib) (m : TokenManager) (userID : Int) (username : String)
    (ttlSeconds : Int) (nowExp nowIat : Time) :
    m.GenerateAccessToken lib nowExp nowIat userID username ttlSeconds =
      (if m.jwtSecret.length = 0 then .error "jwt secret not configured"
       else lib.SignedString .HS256
         (accessClaims userID username ttlSeconds nowExp nowIat) m.jwtSecret) ∧
    (accessClaims userID username ttlSeconds nowExp nowIat).sub = toString userID ∧
    (accessClaims userID username ttlSeconds nowExp nowIat).username = username ∧
    (accessClaims userID username ttlSeconds nowExp nowIat).iat = Unix nowIat ∧
    (accessClaims userID username ttlSeconds nowExp nowIat).exp =
      Unix (nowExp + wrap64 (ttlSeconds * Second)) ∧
    (fitsInt64 (ttlSeconds * Second) →
      (accessClaims userID username ttlSeconds nowExp nowIat).exp = Unix nowExp + ttlSeconds ∧
      ((accessClaims userID username ttlSeconds nowExp nowIat).exp =
          (accessClaims userID username ttlSeconds nowExp nowIat).iat + ttlSeconds ↔
        Unix nowExp = Unix nowIat) ∧
      (nowExp ≤ nowIat →
        (accessClaims userID username ttlSeconds nowExp nowIat).exp ≤
          (accessClaims userID username ttlSeconds nowExp nowIat).iat + ttlSeconds)) := by
  refine ⟨rfl, rfl, rfl, rfl, rfl, ?_⟩
  intro hfit
  have hexp : (accessClaims userID username ttlSeconds nowExp nowIat).exp =
      Unix nowExp + ttlSeconds := by
    show Unix (nowExp + wrap64 (ttlSeconds * Second)) = _
    rw [wrap64_of_fits _ hfit, Unix_add_seconds]
  have hiat : (accessClaims userID username ttlSeconds nowExp nowIat).iat = Unix nowIat := rfl
  refine ⟨hexp, ?_, ?_⟩
  · rw [hexp, hiat]
    constructor
    · intro h
      omega
    · intro h
      rw [h]
  · intro hle
    rw [hexp, hiat]
    have := Unix_mono hle
    omega

/-- Witness of C13, amended: ttl 900 with both clock readings inside second 50. -/
theorem C13_access_claims_witness :
    (accessClaims (-42) "u" 900 50000000001 50999999999).sub = "-42" ∧
    (accessClaims (-42) "u" 900 50000000001 50999999999).exp = 950 ∧
    (accessClaims (-42) "u" 900 50000000001 50999999999).exp =
      (accessClaims (-42) "u" 900 50000000001 50999999999).iat + 900 :=
  have hfit : fitsInt64 (900 * Second) := ⟨by decide, by decide⟩
  have h := (C13_access_claims demoLib demoTM (-42) "u" 900 50000000001 50999999999).2.2.2.2.2
    hfit
  ⟨by decide, h.1.trans (by decide), h.2.1.2 (by decide)⟩

end AuthN
